import Mathlib

/-!
# BinDiff command-line driver (`main_portable.cc`)

A shallow embedding of the command-line differ: the file-name truncation
helper, the construction of the batch todo queue, the differ worker loop with
its quit flag, and the start-up path of `main`.

`std::string` is embedded as a list of characters, `size_t` values as natural
numbers (every subtraction in `GetTruncatedFilename` is guarded in the source,
see `GetTruncatedFilename_no_underflow`), C++ exceptions as an explicit error
result.
-/

namespace BinDiff

/-- Embedding of `std::string`. -/
abbrev Str := List Char

/-- The exceptions the driver distinguishes in its handlers: `std::bad_alloc`,
`std::runtime_error`, any other class derived from `std::exception`, and
anything not derived from `std::exception`. -/
inductive Exception where
  | bad_alloc
  | runtime_error (what : Str)
  | std_exception (what : Str)
  | non_std
  deriving DecidableEq, Repr

/-- The exception is caught by a `catch (const std::exception&)` handler. -/
def Exception.isStd : Exception → Bool
  | .non_std => false
  | _ => true

/-! ## GetTruncatedFilename -/

/-- `enum { kMaxFilename = 250 }`. -/
def kMaxFilename : Nat := 250

/-- `std::string::substr(pos, count)` for `pos <= size()`. -/
def substr (s : Str) (pos count : Nat) : Str := (s.drop pos).take count

/-- The message of the `std::runtime_error` thrown by `GetTruncatedFilename`. -/
def truncationError (path part1 middle part2 extension : Str) : Exception :=
  .runtime_error
    ("Cannot create a valid filename, please choose shorter input names or directories! '".toList
      ++ path ++ part1 ++ middle ++ part2 ++ extension ++ "'".toList)

/-- The first shortening step of `GetTruncatedFilename` (source lines 96-109):
the longer of the two parts is cut down, at most to the length of the other
one. Returns `(one, two, overflow)`. -/
def shortenLonger (part1 part2 : Str) (overflow : Nat) : Str × Str × Nat :=
  if part1.length > part2.length then
    let one := substr part1 0
      (max part2.length (if part1.length > overflow then part1.length - overflow else 0))
    (one, part2, overflow - (part1.length - one.length))
  else if part2.length > part1.length then
    let two := substr part2 0
      (max part1.length (if part2.length > overflow then part2.length - overflow else 0))
    (part1, two, overflow - (part2.length - two.length))
  else
    (part1, part2, overflow)

/-- `GetTruncatedFilename` of `main_portable.cc`; a thrown exception is the
`Except.error` result. -/
def GetTruncatedFilename (path part1 middle part2 extension : Str) :
    Except Exception Str :=
  let length := path.length + part1.length + middle.length + part2.length + extension.length
  if length ≤ kMaxFilename then
    .ok (path ++ part1 ++ middle ++ part2 ++ extension)
  else
    let overflow := length - kMaxFilename
    -- First, shorten the longer of the two strings.
    let r := shortenLonger part1 part2 overflow
    let one := r.1
    let two := r.2.1
    let overflow := r.2.2
    if overflow = 0 then
      .ok (path ++ one ++ middle ++ two ++ extension)
    -- Second, if that still wasn't enough, shorten both strings equally.
    else if overflow / 2 ≥ one.length then
      .error (truncationError path part1 middle part2 extension)
    else
      .ok (path ++ substr part1 0 (one.length - overflow / 2) ++ middle ++
        substr part2 0 (two.length - overflow / 2) ++ extension)

/-! ## BatchDiff: the todo queue -/

/-- `TFiles`: the `std::list` of file pairs. -/
abbrev TFiles := List (Str × Str)

/-- `TUniqueFiles`: the elements of a `std::set<std::string>` in iteration
order. A `std::set` holds no element twice; the theorems about it assume
`Nodup`. -/
abbrev TUniqueFiles := List Str

/-- The inner loop of the todo-list construction (source lines 413-417) for one
position `i` of the outer iterator: `j` runs over all of `diff_files`, the
iterators are compared by position. -/
def todoForFile (diff_files : TUniqueFiles) (reference_file : Str) (i : Nat × Str) : TFiles :=
  diff_files.enum.filterMap fun j =>
    if i.1 ≠ j.1 ∧ (reference_file = [] ∨ reference_file = i.2) then some (i.2, j.2) else none

/-- The todo list of file pairs built by `BatchDiff` (source lines 410-418). -/
def createTodoList (diff_files : TUniqueFiles) (reference_file : Str) : TFiles :=
  diff_files.enum.flatMap (todoForFile diff_files reference_file)

/-! ## Result writers -/

/-- The command-line flags (`DEFINE_string` / `DEFINE_bool`, source lines
53-65), with their values after `ParseCommandLineFlags`. -/
structure Flags where
  FLAGS_primary : Str
  FLAGS_secondary : Str
  FLAGS_output_dir : Str
  FLAGS_log_format : Bool
  FLAGS_bin_format : Bool
  FLAGS_md_index : Bool
  FLAGS_export : Bool
  FLAGS_ls : Bool
  FLAGS_config : Str

/-- The two writers the driver chains, each with the file it writes to. -/
inductive Writer where
  | ResultsLogWriter (filename : Str)
  | DatabaseWriter (filename : Str)
  deriving DecidableEq, Repr

/-- Modelled from the spec: the `ChainWriter` class is declared in a header
that is not among the sources; the spec says of the result writers that
"multiple writers may be chained". The chain is the list of writers in the
order of the `Add` calls. -/
abbrev ChainWriter := List Writer

/-- `ChainWriter::Add`. -/
def ChainWriter.Add (writer : ChainWriter) (w : Writer) : ChainWriter := writer ++ [w]

/-- `ChainWriter::IsEmpty`. -/
def ChainWriter.IsEmpty (writer : ChainWriter) : Bool := writer.isEmpty

/-- The construction of the writer chain, the same statements in
`DifferThread::operator()` (source lines 217-227) and in `main` (lines
713-723): `out_dir` is `out_path_` resp. `FLAGS_output_dir`, `filename1` and
`filename2` are the `GetFilename()` of the two call graphs. -/
def makeChainWriter (flags : Flags) (out_dir filename1 filename2 : Str) :
    Except Exception ChainWriter :=
  let writer : ChainWriter := []
  let afterLog : Except Exception ChainWriter :=
    if flags.FLAGS_log_format then
      match GetTruncatedFilename (out_dir ++ "/".toList) filename1 "_vs_".toList filename2
          ".results".toList with
      | .ok name => .ok (writer.Add (.ResultsLogWriter name))
      | .error e => .error e
    else .ok writer
  match afterLog with
  | .error e => .error e
  | .ok writer =>
    if flags.FLAGS_bin_format ∨ writer.IsEmpty then
      match GetTruncatedFilename (out_dir ++ "/".toList) filename1 "_vs_".toList filename2
          ".BinDiff".toList with
      | .ok name => .ok (writer.Add (.DatabaseWriter name))
      | .error e => .error e
    else .ok writer

/-! ## DifferThread -/

/-- What the worker keeps of a loaded call graph: the name `GetFilename()`
returns. A default-constructed call graph has the empty name. -/
structure CallGraph where
  filename : Str
  deriving DecidableEq, Repr

/-- The collaborators of the driver whose code is outside the sources at hand
(program loader, matching engine, writers, path helper), as parameters: what a
call of each returns or throws. -/
structure World where
  /-- `JoinPath(a, b)`. -/
  JoinPath : Str → Str → Str
  /-- `Read(path, &call_graph, ...)`: the loaded call graph, or the exception thrown. -/
  Read : Str → Except Exception CallGraph
  /-- `Diff(...)` followed by `GetCountsAndHistogram`, `GetSimilarityScore` and
  `GetConfidence`: `none` when they return, otherwise the exception thrown. -/
  Diff : CallGraph → CallGraph → Option Exception
  /-- `writer.Write(...)` of the chain: `none` when it returns. -/
  Write : ChainWriter → CallGraph → CallGraph → Option Exception

/-- What a differ worker does, in order. -/
inductive Event where
  /-- A pair was popped from the todo queue. -/
  | pop (file1 file2 : Str)
  /-- `instruction_cache.Clear()`. -/
  | cacheClear
  /-- `DeleteFlowGraphs(&flow_graphs1)` and `Read` of the primary from `path`. -/
  | read1 (path : Str)
  /-- `ResetMatches(&flow_graphs1)`. -/
  | resetMatches1
  /-- `DeleteFlowGraphs(&flow_graphs2)` and `Read` of the secondary from `path`. -/
  | read2 (path : Str)
  /-- `ResetMatches(&flow_graphs2)`. -/
  | resetMatches2
  /-- `Diff` of the two loaded programs. -/
  | diff (call_graph1 call_graph2 : CallGraph)
  /-- `writer.Write` of the chain. -/
  | write (writer : ChainWriter)
  /-- The log line of the `catch (const std::bad_alloc&)` handler. -/
  | logOutOfMemory (file1 file2 : Str)
  /-- The log line of the `catch (const std::exception&)` handler. -/
  | logError (file1 file2 : Str)
  deriving DecidableEq, Repr

/-- Where a worker stands in the `do { ... } while (!g_wants_to_quit)` loop of
`DifferThread::operator()`. -/
inductive Pc where
  /-- At the locked block that pops a pair (the start of the loop body). -/
  | atPop
  /-- After the pop, before the rest of the `try` block, holding the pair. -/
  | processing (file1 file2 : Str)
  /-- At the loop test `while (!g_wants_to_quit)`. -/
  | atCheck
  /-- The loop was left: `operator()` returned. -/
  | done
  /-- An exception that no handler catches left `operator()`. -/
  | crashed
  deriving DecidableEq, Repr

/-- The members and locals of one `DifferThread::operator()` activation. -/
structure DifferThread where
  path_ : Str
  out_path_ : Str
  last_file1 : Str
  last_file2 : Str
  call_graph1 : CallGraph
  call_graph2 : CallGraph
  pc : Pc
  events : List Event

/-- The state at the start of `operator()` for `DifferThread(path, out_path, files)`. -/
def DifferThread.create (path out_path : Str) : DifferThread :=
  { path_ := path, out_path_ := out_path, last_file1 := [], last_file2 := [],
    call_graph1 := ⟨[]⟩, call_graph2 := ⟨[]⟩, pc := .atPop, events := [] }

def DifferThread.emit (t : DifferThread) (e : Event) : DifferThread :=
  { t with events := t.events ++ [e] }

/-- Source lines 171-174: the cache is kept if one file stays the same. -/
def clearCacheUnlessShared (t : DifferThread) (file1 file2 : Str) : DifferThread :=
  if t.last_file1 ≠ file1 ∧ t.last_file2 ≠ file2 then t.emit .cacheClear else t

/-- Source lines 179-187: read the primary unless it is the remembered one. -/
def setupPrimary (w : World) (t : DifferThread) (file1 : Str) :
    Option Exception × DifferThread :=
  if t.last_file1 ≠ file1 then
    let path := w.JoinPath t.path_ (file1 ++ ".BinExport".toList)
    match w.Read path with
    | .ok call_graph => (none, { t.emit (.read1 path) with call_graph1 := call_graph })
    | .error e => (some e, t.emit (.read1 path))
  else
    (none, t.emit .resetMatches1)

/-- Source lines 189-197: read the secondary unless it is the remembered one. -/
def setupSecondary (w : World) (t : DifferThread) (file2 : Str) :
    Option Exception × DifferThread :=
  if t.last_file2 ≠ file2 then
    let path := t.path_ ++ "/".toList ++ file2 ++ ".BinExport".toList
    match w.Read path with
    | .ok call_graph => (none, { t.emit (.read2 path) with call_graph2 := call_graph })
    | .error e => (some e, t.emit (.read2 path))
  else
    (none, t.emit .resetMatches2)

/-- Source lines 201-240: diff, score, build the writer chain and write. -/
def diffAndWrite (w : World) (flags : Flags) (t : DifferThread) :
    Option Exception × DifferThread :=
  let t := t.emit (.diff t.call_graph1 t.call_graph2)
  match w.Diff t.call_graph1 t.call_graph2 with
  | some e => (some e, t)
  | none =>
    match makeChainWriter flags t.out_path_ t.call_graph1.filename t.call_graph2.filename with
    | .error e => (some e, t)
    | .ok writer =>
      let t := t.emit (.write writer)
      (w.Write writer t.call_graph1 t.call_graph2, t)

/-- The `try` block of the loop body after the pop (source lines 171-243);
`some e` when it is left by the exception `e`. -/
def tryBody (w : World) (flags : Flags) (t : DifferThread) (file1 file2 : Str) :
    Option Exception × DifferThread :=
  let t := clearCacheUnlessShared t file1 file2
  match setupPrimary w t file1 with
  | (some e, t) => (some e, t)
  | (none, t) =>
    match setupSecondary w t file2 with
    | (some e, t) => (some e, t)
    | (none, t) =>
      match diffAndWrite w flags t with
      | (some e, t) => (some e, t)
      | (none, t) => (none, { t with last_file1 := file1, last_file2 := file2 })

/-- The rest of the loop body for a popped pair: the `try` block and the two
handlers (source lines 244-253). An exception that is not a `std::exception`
is caught by neither and leaves `operator()`. -/
def processPair (w : World) (flags : Flags) (t : DifferThread) (file1 file2 : Str) :
    DifferThread :=
  match tryBody w flags t file1 file2 with
  | (none, t) => { t with pc := .atCheck }
  | (some .bad_alloc, t) =>
    { t.emit (.logOutOfMemory file1 file2) with last_file1 := [], last_file2 := [], pc := .atCheck }
  | (some .non_std, t) => { t with pc := .crashed }
  | (some _, t) =>
    { t.emit (.logError file1 file2) with last_file1 := [], last_file2 := [], pc := .atCheck }

/-- The state the workers share, and the process state the signal handler
touches. -/
structure Shared where
  /-- `*file_queue_`, guarded by `g_queue_mutex`. -/
  file_queue : TFiles
  g_wants_to_quit : Bool
  /-- The `static int signal_count` of `SignalHandler`. -/
  signal_count : Nat
  /-- The process is still running (no `exit`, no uncaught exception). -/
  alive : Bool

/-- One atomic step of a worker: the locked pop, the processing of the popped
pair, or the loop test. -/
def workerStep (w : World) (flags : Flags) (sh : Shared) (t : DifferThread) :
    Shared × DifferThread :=
  match t.pc with
  | .atPop =>
    match sh.file_queue with
    | [] => (sh, { t with pc := .done })
    | (file1, file2) :: rest =>
      ({ sh with file_queue := rest },
        { t.emit (.pop file1 file2) with pc := .processing file1 file2 })
  | .processing file1 file2 =>
    let t := processPair w flags t file1 file2
    ({ sh with alive := sh.alive && t.pc != .crashed }, t)
  | .atCheck =>
    if sh.g_wants_to_quit then (sh, { t with pc := .done }) else (sh, { t with pc := .atPop })
  | .done => (sh, t)
  | .crashed => (sh, t)

/-- `SignalHandler(SIGINT)` (source lines 504-521). -/
def SignalHandler (sh : Shared) : Shared :=
  let sh := { sh with signal_count := sh.signal_count + 1 }
  if sh.signal_count < 3 then { sh with g_wants_to_quit := true }
  else { sh with alive := false }

/-- The differ phase of `BatchDiff`: the shared state and the worker threads. -/
structure System where
  shared : Shared
  threads : List DifferThread

/-- What can happen next: a SIGINT is delivered, or worker `i` makes a step
(in a world `w` that fixes what its collaborators do during that step). -/
inductive Action where
  | sigint
  | thread (i : Nat) (w : World)

def System.step (flags : Flags) (s : System) : Action → System
  | .sigint => if s.shared.alive then { s with shared := SignalHandler s.shared } else s
  | .thread i w =>
    if s.shared.alive then
      match s.threads[i]? with
      | none => s
      | some t =>
        let r := workerStep w flags s.shared t
        { shared := r.1, threads := s.threads.set i r.2 }
    else s

/-- Run a schedule of actions. -/
def System.run (flags : Flags) (s : System) (schedule : List Action) : System :=
  schedule.foldl (System.step flags) s

def Event.isPop : Event → Bool
  | .pop _ _ => true
  | _ => false

/-- The number of pairs a worker has popped so far. -/
def DifferThread.popCount (t : DifferThread) : Nat :=
  t.events.countP Event.isPop

/-- The number of steps a worker is away from leaving its loop once the quit
flag is set: pop, process, test. -/
def Pc.stepsToStop : Pc → Nat
  | .atPop => 3
  | .processing _ _ => 2
  | .atCheck => 1
  | .done => 0
  | .crashed => 0

/-- The action is a step of worker `i`. -/
def Action.isThread (i : Nat) : Action → Bool
  | .sigint => false
  | .thread j _ => j == i

/-- The number of steps worker `i` is given in a schedule. -/
def stepsOf (i : Nat) (schedule : List Action) : Nat :=
  schedule.countP (Action.isThread i)

/-! ## BatchDiff: the worker threads -/

/-- Conversion of an `int` to `unsigned` (32 bits). -/
def toUnsigned (i : Int) : Nat := (i % 2 ^ 32).toNat

/-- Conversion of an `unsigned` to `int` (32 bits, two's complement). -/
def toInt (n : Nat) : Int :=
  if n % 2 ^ 32 < 2 ^ 31 then ((n % 2 ^ 32 : Nat) : Int) else ((n % 2 ^ 32 : Nat) : Int) - 2 ^ 32

/-- Modelled from the spec: `XmlConfig::ReadInt(key, default_value)` is defined
in `xmlconfig.cc`, which is not among the sources. The spec says of the
`threads` key that it "defaults to hardware concurrency", the value passed as
`default_value`: the call returns the integer stored under the key when the
configuration has one (`entry = some v`), and `default_value` otherwise. -/
def ReadInt (entry : Option Int) (default_value : Int) : Int :=
  match entry with
  | some v => v
  | none => default_value

/-- `num_threads` of `BatchDiff` (source lines 422-425): `threads_use` is the
`/BinDiffDeluxe/Threads/@use` entry of the configuration, if any,
`num_hardware_threads` the value of `std::thread::hardware_concurrency()`. -/
def numThreads (threads_use : Option Int) (num_hardware_threads : Nat) : Nat :=
  toUnsigned (ReadInt threads_use (toInt num_hardware_threads))

/-- `BatchDiff` from the construction of the todo list to the start of the
differ threads (source lines 410-453): the todo queue and `num_threads`
workers `DifferThread(out_path, out_path, &files)`, none with `--export`.
The export phase before it does not touch the queue; a SIGINT during it is
seen in `g_wants_to_quit` and `signal_count`. -/
def BatchDiff (flags : Flags) (diff_files : TUniqueFiles) (reference_file out_path : Str)
    (threads_use : Option Int) (num_hardware_threads : Nat)
    (g_wants_to_quit : Bool) (signal_count : Nat) : System :=
  let files := createTodoList diff_files reference_file
  let num_threads := numThreads threads_use num_hardware_threads
  { shared :=
      { file_queue := files, g_wants_to_quit := g_wants_to_quit,
        signal_count := signal_count, alive := true },
    threads :=
      if flags.FLAGS_export then []
      else List.replicate num_threads (DifferThread.create out_path out_path) }

/-! ## main -/

/-- What `main` does to the outside, in order. -/
inductive MainEvent where
  /-- `Read(file, ...)` of a program. -/
  | read (file : Str)
  | ListFiles (path : Str)
  | BatchDumpMdIndices (path : Str)
  | BatchDiff (path reference_file out_path : Str)
  | DumpMdIndices (call_graph : CallGraph)
  /-- `Diff` of the two loaded programs, with the scoring that follows it. -/
  | diff (call_graph1 call_graph2 : CallGraph)
  /-- `writer.Write` of the chain. -/
  | write (writer : ChainWriter)
  | ShowUsageWithFlags
  /-- The log line of the `catch (const std::exception&)` handler. -/
  | logError (error : Exception)
  /-- The log line of the `catch (...)` handler. -/
  | logUnknownError
  deriving DecidableEq, Repr

/-- What `main` finds at start-up, beside the flags: the configuration as far
as `main` looks at it, the file system, and what the batch operations and the
collaborators do. -/
structure MainEnv where
  /-- `GetCurrentDirectory()`. -/
  current_path : Str
  /-- `GetConfig().GetDocument()` is not null. -/
  config_document : Bool
  /-- The names of the steps `GetDefaultMatchingSteps()` returns. -/
  DefaultMatchingSteps : List Str
  /-- The names of the steps `GetDefaultMatchingStepsBasicBlock()` returns. -/
  DefaultMatchingStepsBasicBlock : List Str
  FileExists : Str → Bool
  IsDirectory : Str → Bool
  /-- The batch operations: `none` when the call returns, else what it throws. -/
  ListFiles : Str → Option Exception
  BatchDumpMdIndices : Str → Option Exception
  BatchDiff : Str → Str → Str → Option Exception
  world : World

/-- The locals of `main` that change. -/
structure MainState where
  call_graph1 : Option CallGraph
  call_graph2 : Option CallGraph
  done_something : Bool
  events : List MainEvent

def MainState.emit (s : MainState) (e : MainEvent) : MainState :=
  { s with events := s.events ++ [e] }

/-- Source lines 626-632: primary from file system. -/
def mainReadPrimary (flags : Flags) (env : MainEnv) (s : MainState) :
    Option Exception × MainState :=
  if env.FileExists flags.FLAGS_primary then
    match env.world.Read flags.FLAGS_primary with
    | .ok call_graph =>
      (none, { s.emit (.read flags.FLAGS_primary) with call_graph1 := some call_graph })
    | .error e => (some e, s.emit (.read flags.FLAGS_primary))
  else (none, s)

/-- Source lines 634-644: file system batch diff; `output_dir` is
`FLAGS_output_dir` after the defaulting of lines 614-617. -/
def mainBatch (flags : Flags) (env : MainEnv) (output_dir : Str) (s : MainState) :
    Option Exception × MainState :=
  if env.IsDirectory flags.FLAGS_primary then
    let r : Option Exception × MainState :=
      if flags.FLAGS_ls then
        (env.ListFiles flags.FLAGS_primary, s.emit (.ListFiles flags.FLAGS_primary))
      else if flags.FLAGS_md_index then
        (env.BatchDumpMdIndices flags.FLAGS_primary,
          s.emit (.BatchDumpMdIndices flags.FLAGS_primary))
      else
        (env.BatchDiff flags.FLAGS_primary flags.FLAGS_secondary output_dir,
          s.emit (.BatchDiff flags.FLAGS_primary flags.FLAGS_secondary output_dir))
    match r with
    | (some e, s) => (some e, s)
    | (none, s) => (none, { s with done_something := true })
  else (none, s)

/-- Source lines 646-649. -/
def mainDumpMdIndices (flags : Flags) (s : MainState) : MainState :=
  match s.call_graph1 with
  | some call_graph1 =>
    if flags.FLAGS_md_index then
      { s.emit (.DumpMdIndices call_graph1) with done_something := true }
    else s
  | none => s

/-- Source lines 651-658: secondary from file system. -/
def mainReadSecondary (flags : Flags) (env : MainEnv) (s : MainState) :
    Option Exception × MainState :=
  if flags.FLAGS_secondary ≠ [] ∧ env.FileExists flags.FLAGS_secondary then
    match env.world.Read flags.FLAGS_secondary with
    | .ok call_graph =>
      (none, { s.emit (.read flags.FLAGS_secondary) with call_graph2 := some call_graph })
    | .error e => (some e, s.emit (.read flags.FLAGS_secondary))
  else (none, s)

/-- The condition of the `Invalid inputs` error (source lines 660-664). -/
def invalidInputs (flags : Flags) (env : MainEnv) (s : MainState) : Bool :=
  !s.done_something &&
    ((!env.FileExists flags.FLAGS_primary && !env.IsDirectory flags.FLAGS_primary) ||
      (!flags.FLAGS_secondary.isEmpty &&
        (!env.FileExists flags.FLAGS_secondary && !env.IsDirectory flags.FLAGS_secondary)))

/-- Source lines 670-733: the single diff of the two loaded programs. -/
def mainSingleDiff (flags : Flags) (env : MainEnv) (output_dir : Str) (s : MainState) :
    Option Exception × MainState :=
  match s.call_graph1, s.call_graph2 with
  | some call_graph1, some call_graph2 =>
    let s := s.emit (.diff call_graph1 call_graph2)
    match env.world.Diff call_graph1 call_graph2 with
    | some e => (some e, s)
    | none =>
      match makeChainWriter flags output_dir call_graph1.filename call_graph2.filename with
      | .error e => (some e, s)
      | .ok writer =>
        if !writer.IsEmpty then
          let s := s.emit (.write writer)
          match env.world.Write writer call_graph1 call_graph2 with
          | some e => (some e, s)
          | none => (none, { s with done_something := true })
        else (none, { s with done_something := true })
  | _, _ => (none, s)

/-- The `try` block of `main` after the command line is parsed (source lines
581-737); `some e` when it is left by the exception `e`. The `LOG(INFO)` lines
are left out. -/
def mainTry (flags : Flags) (env : MainEnv) : Option Exception × MainState :=
  let s : MainState :=
    { call_graph1 := none, call_graph2 := none, done_something := false, events := [] }
  if !env.config_document then
    (some (.runtime_error "config file invalid or not found".toList), s)
  -- This initializes static variables before the threads get to them.
  else if env.DefaultMatchingSteps.isEmpty || env.DefaultMatchingStepsBasicBlock.isEmpty then
    (some (.runtime_error "config file invalid".toList), s)
  else if flags.FLAGS_primary.isEmpty then
    (some (.runtime_error "Need primary input (--primary)".toList), s)
  else
    let output_dir :=
      if flags.FLAGS_output_dir = env.current_path ∧ env.IsDirectory flags.FLAGS_primary then
        flags.FLAGS_primary
      else flags.FLAGS_output_dir
    if !env.IsDirectory output_dir then
      (some (.runtime_error
        ("Output parameter (--output_dir) must be a writable directory! Supplied value: \"".toList
          ++ output_dir ++ "\"".toList)), s)
    else
      match mainReadPrimary flags env s with
      | (some e, s) => (some e, s)
      | (none, s) =>
        match mainBatch flags env output_dir s with
        | (some e, s) => (some e, s)
        | (none, s) =>
          let s := mainDumpMdIndices flags s
          match mainReadSecondary flags env s with
          | (some e, s) => (some e, s)
          | (none, s) =>
            if invalidInputs flags env s then
              (some (.runtime_error
                ("Invalid inputs. Please make sure --primary and --secondary ".toList ++
                  "point to valid files/directories.".toList)), s)
            else
              match mainSingleDiff flags env output_dir s with
              | (some e, s) => (some e, s)
              | (none, s) =>
                if !s.done_something then (none, s.emit .ShowUsageWithFlags) else (none, s)

/-- The result of `main`: exit code and what it did. -/
structure MainResult where
  exit_code : Nat
  events : List MainEvent

/-- `main` (source lines 523-746) for parsed flags: the `try` block and the two
handlers. -/
def main (flags : Flags) (env : MainEnv) : MainResult :=
  match mainTry flags env with
  | (none, s) => { exit_code := 0, events := s.events }
  | (some e, s) =>
    if e.isStd then { exit_code := 1, events := s.events ++ [.logError e] }
    else { exit_code := 2, events := s.events ++ [.logUnknownError] }

/-! ## Worlds for the examples -/

/-- A world in which every file loads (the call graph is named after the
path), and diffing and writing succeed. -/
def goodWorld : World :=
  { JoinPath := fun a b => a ++ "/".toList ++ b
    Read := fun path => .ok ⟨path⟩
    Diff := fun _ _ => none
    Write := fun _ _ _ => none }

/-- A world in which loading a program runs out of memory. -/
def outOfMemoryWorld : World :=
  { goodWorld with Read := fun _ => .error .bad_alloc }

/-- Flags of a batch run over the directory `d` without format flags. -/
def batchFlags : Flags :=
  { FLAGS_primary := "d".toList, FLAGS_secondary := [], FLAGS_output_dir := "d".toList,
    FLAGS_log_format := false, FLAGS_bin_format := false, FLAGS_md_index := false,
    FLAGS_export := false, FLAGS_ls := false, FLAGS_config := [] }

/-- A shared state of a running process with the given queue and quit flag. -/
def sharedWith (file_queue : TFiles) (g_wants_to_quit : Bool) : Shared :=
  { file_queue := file_queue, g_wants_to_quit := g_wants_to_quit,
    signal_count := if g_wants_to_quit then 1 else 0, alive := true }

/-- A worker of the directory `d` that has just popped the pair `(file1, file2)`. -/
def workerHolding (file1 file2 : Str) : DifferThread :=
  { DifferThread.create "d".toList "d".toList with
    pc := .processing file1 file2, events := [.pop file1 file2] }

/-- A start-up environment with a configuration whose call-graph step list is
empty, and two loadable input files. -/
def emptyStepsEnv : MainEnv :=
  { current_path := "d".toList, config_document := true,
    DefaultMatchingSteps := [], DefaultMatchingStepsBasicBlock := ["x".toList],
    FileExists := fun _ => true, IsDirectory := fun p => p = "d".toList,
    ListFiles := fun _ => none, BatchDumpMdIndices := fun _ => none,
    BatchDiff := fun _ _ _ => none, world := goodWorld }

/-- Flags of a single diff of the files `p` and `s`. -/
def singleDiffFlags : Flags :=
  { batchFlags with FLAGS_primary := "p".toList, FLAGS_secondary := "s".toList }

/-- Flags of a single diff of the files `p` and `s` with both format flags. -/
def bothFormatsFlags : Flags :=
  { singleDiffFlags with FLAGS_log_format := true, FLAGS_bin_format := true }

set_option maxRecDepth 100000

/-! # Theorems -/

/-! ## GetTruncatedFilename -/

theorem substr_zero_length (s : Str) (n : Nat) : (substr s 0 n).length = min n s.length := by
  simp [substr, List.length_take]

theorem substr_zero_isPrefix (s : Str) (n : Nat) : substr s 0 n <+: s := by
  simpa [substr] using List.take_prefix n s

/-- After the first step either nothing is left to cut, or both parts have the
length of the shorter one (the `assert` of source line 115). -/
theorem shortenLonger_spec (part1 part2 : Str) (overflow : Nat) :
    ((shortenLonger part1 part2 overflow).1 <+: part1) ∧
    ((shortenLonger part1 part2 overflow).2.1 <+: part2) ∧
    (shortenLonger part1 part2 overflow).1.length +
      (shortenLonger part1 part2 overflow).2.1.length + overflow =
      part1.length + part2.length + (shortenLonger part1 part2 overflow).2.2 ∧
    min part1.length part2.length ≤ (shortenLonger part1 part2 overflow).1.length ∧
    min part1.length part2.length ≤ (shortenLonger part1 part2 overflow).2.1.length ∧
    ((shortenLonger part1 part2 overflow).2.2 ≠ 0 →
      (shortenLonger part1 part2 overflow).1.length = min part1.length part2.length ∧
      (shortenLonger part1 part2 overflow).2.1.length = min part1.length part2.length) := by
  unfold shortenLonger
  split_ifs with h1 h2 h3 h4 <;>
    simp only [substr_zero_length, substr_zero_isPrefix, List.prefix_refl, true_and] <;>
    omega

/-- The result of `GetTruncatedFilename`, by cases on the length of the fixed
fragments: it throws exactly when `path`, `middle` and `extension` alone have
more than 250 characters, or exactly 250 with both parts non-empty. -/
theorem GetTruncatedFilename_error_iff (path part1 middle part2 extension : Str) :
    GetTruncatedFilename path part1 middle part2 extension =
        .error (truncationError path part1 middle part2 extension) ↔
      (250 < path.length + middle.length + extension.length ∨
        (path.length + middle.length + extension.length = 250 ∧ part1 ≠ [] ∧ part2 ≠ [])) := by
  have hs := shortenLonger_spec part1 part2
    (path.length + part1.length + middle.length + part2.length + extension.length - kMaxFilename)
  have h1 : part1 ≠ [] ↔ 0 < part1.length := by
    rw [List.length_pos]
  have h2 : part2 ≠ [] ↔ 0 < part2.length := by
    rw [List.length_pos]
  rw [h1, h2]
  unfold GetTruncatedFilename
  simp only [kMaxFilename] at hs ⊢
  split_ifs with ha hb hc
  · simp only [reduceCtorEq, false_iff]; omega
  · simp only [reduceCtorEq, false_iff]; omega
  · simp only [true_iff]
    have := hs.2.2.2.2.2 hb
    omega
  · simp only [reduceCtorEq, false_iff]
    have := hs.2.2.2.2.2 hb
    omega

/-- The function always either returns a name or throws its `runtime_error`. -/
theorem GetTruncatedFilename_total (path part1 middle part2 extension : Str) :
    (∃ r, GetTruncatedFilename path part1 middle part2 extension = .ok r) ∨
      GetTruncatedFilename path part1 middle part2 extension =
        .error (truncationError path part1 middle part2 extension) := by
  simp only [GetTruncatedFilename]
  split_ifs <;> simp

/-- No `size_t` subtraction of the first shortening step wraps around: what is
subtracted from `overflow` is at most `overflow`, and a shortened part is no
longer than the part. (`length - kMaxFilename` is computed only when
`length > kMaxFilename`, and the subtractions of `overflow / 2` only when
`overflow / 2 < one.size()`.) -/
theorem GetTruncatedFilename_no_underflow (path part1 middle part2 extension : Str) :
    let overflow :=
      path.length + part1.length + middle.length + part2.length + extension.length - kMaxFilename
    let r := shortenLonger part1 part2 overflow
    part1.length - r.1.length ≤ overflow ∧ part2.length - r.2.1.length ≤ overflow ∧
      r.1.length ≤ part1.length ∧ r.2.1.length ≤ part2.length := by
  intro overflow r
  have hs := shortenLonger_spec part1 part2 overflow
  have h1 := hs.1.length_le
  have h2 := hs.2.1.length_le
  refine ⟨?_, ?_, h1, h2⟩ <;>
    · simp only [r, shortenLonger]
      split_ifs <;> simp only [substr_zero_length] <;> omega

/-- A returned name is never longer than 251 characters. -/
theorem GetTruncatedFilename_length_le (path part1 middle part2 extension r : Str)
    (h : GetTruncatedFilename path part1 middle part2 extension = .ok r) :
    r.length ≤ 251 := by
  have hs := shortenLonger_spec part1 part2
    (path.length + part1.length + middle.length + part2.length + extension.length - kMaxFilename)
  have hp1 := hs.1.length_le
  have hp2 := hs.2.1.length_le
  unfold GetTruncatedFilename at h
  simp only [kMaxFilename] at hs h
  split_ifs at h with ha hb hc
  · simp only [Except.ok.injEq] at h
    subst h
    simp only [List.length_append]
    omega
  · simp only [Except.ok.injEq] at h
    subst h
    simp only [List.length_append]
    omega
  · simp only [Except.ok.injEq] at h
    subst h
    have := hs.2.2.2.2.2 hb
    simp only [List.length_append, substr_zero_length]
    omega

/-- C1 (code defect): with `path = "ou/"`, two parts of 120 characters, middle
`"_vs_"` and extension `".BinDiff"` (255 characters in all, overflow 5) the
second step cuts `5 / 2 = 2` characters from each part and the function returns
a name of 251 characters, one more than the 250 its comment promises. -/
theorem C1_GetTruncatedFilename_returns_251 :
    GetTruncatedFilename "ou/".toList (List.replicate 120 'a') "_vs_".toList
        (List.replicate 120 'b') ".BinDiff".toList =
      .ok ("ou/".toList ++ List.replicate 118 'a' ++ "_vs_".toList ++
        List.replicate 118 'b' ++ ".BinDiff".toList) ∧
    ("ou/".toList ++ List.replicate 118 'a' ++ "_vs_".toList ++
        List.replicate 118 'b' ++ ".BinDiff".toList).length = 251 := by
  constructor
  · rfl
  · rfl

/-- C2 (as stated, refuted): `path`, `middle` and `extension` have exactly 250
characters together, so cutting both parts to nothing would give a name of 250
characters, yet the call throws. -/
theorem C2_counterexample :
    (List.replicate 238 'p').length + "_vs_".toList.length + ".BinDiff".toList.length ≤ 250 ∧
    GetTruncatedFilename (List.replicate 238 'p') "a".toList "_vs_".toList "b".toList
        ".BinDiff".toList =
      .error (truncationError (List.replicate 238 'p') "a".toList "_vs_".toList "b".toList
        ".BinDiff".toList) := by
  constructor
  · decide
  · rfl

/-- C2 (amended): when `path`, `middle` and `extension` have at most 250
characters together, `GetTruncatedFilename` returns a name exactly when they
have fewer than 250 characters or one of `part1`, `part2` is empty. -/
theorem C2_returns_iff (path part1 middle part2 extension : Str)
    (h : path.length + middle.length + extension.length ≤ 250) :
    (∃ r, GetTruncatedFilename path part1 middle part2 extension = .ok r) ↔
      (path.length + middle.length + extension.length < 250 ∨ part1 = [] ∨ part2 = []) := by
  have hiff := GetTruncatedFilename_error_iff path part1 middle part2 extension
  constructor
  · rintro ⟨r, hr⟩
    by_contra hcon
    push_neg at hcon
    have herr := hiff.2 (Or.inr ⟨by omega, hcon.2.1, hcon.2.2⟩)
    rw [hr] at herr
    cases herr
  · intro hcase
    rcases GetTruncatedFilename_total path part1 middle part2 extension with hok | herr
    · exact hok
    · exfalso
      rcases hiff.1 herr with hgt | ⟨heq, hp1, hp2⟩
      · omega
      · rcases hcase with hlt | hp | hp
        · omega
        · exact hp1 hp
        · exact hp2 hp

theorem C2_returns_iff_witness :
    (∃ r, GetTruncatedFilename "ou/".toList (List.replicate 300 'a') "_vs_".toList
        (List.replicate 300 'b') ".BinDiff".toList = .ok r) ↔
      ("ou/".toList.length + "_vs_".toList.length + ".BinDiff".toList.length < 250 ∨
        List.replicate 300 'a' = [] ∨ List.replicate 300 'b' = []) :=
  C2_returns_iff _ _ _ _ _ (by decide)

/-- C3: when `path`, `middle` and `extension` alone have more than 250
characters, `GetTruncatedFilename` throws its `runtime_error` and returns no
name. -/
theorem C3_throws_when_impossible (path part1 middle part2 extension : Str)
    (h : 250 < path.length + middle.length + extension.length) :
    GetTruncatedFilename path part1 middle part2 extension =
      .error (truncationError path part1 middle part2 extension) :=
  (GetTruncatedFilename_error_iff path part1 middle part2 extension).2 (Or.inl h)

theorem C3_throws_when_impossible_witness :
    GetTruncatedFilename (List.replicate 251 'p') "a".toList [] "b".toList [] =
      .error (truncationError (List.replicate 251 'p') "a".toList [] "b".toList []) :=
  C3_throws_when_impossible _ _ _ _ _ (by decide)

/-- C4: a returned name is `path ++ p1 ++ middle ++ p2 ++ extension` with `p1`
a prefix of `part1` and `p2` a prefix of `part2`. -/
theorem C4_truncates_only_parts (path part1 middle part2 extension r : Str)
    (h : GetTruncatedFilename path part1 middle part2 extension = .ok r) :
    ∃ p1 p2 : Str, p1 <+: part1 ∧ p2 <+: part2 ∧
      r = path ++ p1 ++ middle ++ p2 ++ extension := by
  have hs := shortenLonger_spec part1 part2
    (path.length + part1.length + middle.length + part2.length + extension.length - kMaxFilename)
  simp only [GetTruncatedFilename] at h
  split_ifs at h with ha hb hc
  · exact ⟨part1, part2, List.prefix_refl _, List.prefix_refl _, (Except.ok.inj h).symm⟩
  · exact ⟨_, _, hs.1, hs.2.1, (Except.ok.inj h).symm⟩
  · exact ⟨_, _, substr_zero_isPrefix _ _, substr_zero_isPrefix _ _, (Except.ok.inj h).symm⟩

theorem C4_truncates_only_parts_witness :
    ∃ p1 p2 : Str, p1 <+: List.replicate 120 'a' ∧ p2 <+: List.replicate 120 'b' ∧
      "ou/".toList ++ List.replicate 118 'a' ++ "_vs_".toList ++
          List.replicate 118 'b' ++ ".BinDiff".toList =
        "ou/".toList ++ p1 ++ "_vs_".toList ++ p2 ++ ".BinDiff".toList :=
  C4_truncates_only_parts _ _ _ _ _ _
    rfl

/-! ## BatchDiff: the todo queue -/

/-- In a duplicate-free list two iterators are equal exactly when they point to
equal elements. -/
theorem enum_index_eq_iff {F : List Str} (hF : F.Nodup) {i j : Nat × Str}
    (hi : i ∈ F.enum) (hj : j ∈ F.enum) : i.1 = j.1 ↔ i.2 = j.2 := by
  rw [List.mem_enum_iff_getElem?] at hi hj
  obtain ⟨hi1, hi2⟩ := List.getElem?_eq_some.1 hi
  obtain ⟨hj1, hj2⟩ := List.getElem?_eq_some.1 hj
  rw [← hi2, ← hj2]
  exact (hF.getElem_inj_iff).symm

/-- On a duplicate-free set the todo list is the list of ordered pairs of
distinct elements whose first component passes the reference filter. -/
theorem createTodoList_eq {F : List Str} (hF : F.Nodup) (r : Str) :
    createTodoList F r = F.flatMap fun a =>
      F.filterMap fun b => if a ≠ b ∧ (r = [] ∨ r = a) then some (a, b) else none := by
  have hinner : ∀ i ∈ F.enum, todoForFile F r i =
      F.filterMap fun b => if i.2 ≠ b ∧ (r = [] ∨ r = i.2) then some (i.2, b) else none := by
    intro i hi
    unfold todoForFile
    conv_rhs => rw [← List.enum_map_snd F, List.filterMap_map]
    apply List.filterMap_congr
    intro j hj
    simp only [Function.comp_apply, ne_eq, enum_index_eq_iff hF hi hj]
  unfold createTodoList
  conv_rhs => rw [← List.enum_map_snd F, List.flatMap_map]
  rw [List.enum_map_snd]
  simp only [List.flatMap, Function.comp_def]
  congr 1
  exact List.map_congr_left hinner

theorem mem_createTodoList {F : List Str} (hF : F.Nodup) (r a b : Str) :
    (a, b) ∈ createTodoList F r ↔ a ∈ F ∧ b ∈ F ∧ a ≠ b ∧ (r = [] ∨ a = r) := by
  rw [createTodoList_eq hF]
  simp only [List.mem_flatMap, List.mem_filterMap, ne_eq, Option.ite_none_right_eq_some,
    Option.some.injEq, Prod.mk.injEq]
  constructor
  · rintro ⟨a', ha', b', hb', ⟨hne, hr⟩, rfl, rfl⟩
    exact ⟨ha', hb', hne, hr.imp id Eq.symm⟩
  · rintro ⟨ha, hb, hne, hr⟩
    exact ⟨a, ha, b, hb, ⟨hne, hr.imp id Eq.symm⟩, rfl, rfl⟩

theorem nodup_createTodoList {F : List Str} (hF : F.Nodup) (r : Str) :
    (createTodoList F r).Nodup := by
  rw [createTodoList_eq hF, List.nodup_flatMap]
  constructor
  · intro a _
    apply hF.filterMap
    intro b b' p hb hb'
    simp only [ne_eq, Option.mem_def, Option.ite_none_right_eq_some, Option.some.injEq] at hb hb'
    have := hb.2.trans hb'.2.symm
    exact (Prod.mk.inj this).2
  · refine hF.imp ?_
    intro a a' hne
    simp only [Function.onFun, List.disjoint_left, List.mem_filterMap, ne_eq,
      Option.ite_none_right_eq_some, Option.some.injEq, not_exists, not_and]
    rintro p ⟨b, _, _, rfl⟩ b' _ _ h
    exact hne (Prod.mk.inj h).1.symm

/-- C5: for a set `F` of discovered file names and a reference name `r`, the
todo queue holds the pair `(a, b)` exactly when `a` and `b` are in `F`,
`a ≠ b`, and `r` is empty or `a = r`; no pair occurs twice; with an empty
reference it has `|F| * (|F| - 1)` pairs; with a (non-empty) reference that is
not in `F` it is empty. -/
theorem C5_todo_queue (F : TUniqueFiles) (r : Str) (hF : F.Nodup) :
    (∀ a b, (a, b) ∈ createTodoList F r ↔ a ∈ F ∧ b ∈ F ∧ a ≠ b ∧ (r = [] ∨ a = r)) ∧
    (createTodoList F r).Nodup ∧
    (r = [] → (createTodoList F r).length = F.length * (F.length - 1)) ∧
    (r ≠ [] → r ∉ F → createTodoList F r = []) := by
  refine ⟨mem_createTodoList hF r, nodup_createTodoList hF r, ?_, ?_⟩
  · intro hr
    have hfin : (createTodoList F r).toFinset = F.toFinset.offDiag := by
      ext ⟨a, b⟩
      simp [mem_createTodoList hF, hr]
    rw [← List.toFinset_card_of_nodup (nodup_createTodoList hF r), hfin, Finset.offDiag_card,
      List.toFinset_card_of_nodup hF, Nat.mul_sub, Nat.mul_one]
  · intro hr hmem
    apply List.eq_nil_iff_forall_not_mem.2
    rintro ⟨a, b⟩ hab
    rcases (mem_createTodoList hF r a b).1 hab with ⟨ha, -, -, h | h⟩
    · exact hr h
    · exact hmem (h ▸ ha)

theorem C5_todo_queue_witness :
    (∀ a b, (a, b) ∈ createTodoList ["x".toList, "y".toList, "z".toList] [] ↔
      a ∈ ["x".toList, "y".toList, "z".toList] ∧ b ∈ ["x".toList, "y".toList, "z".toList] ∧
        a ≠ b ∧ (([] : Str) = [] ∨ a = [])) ∧
    (createTodoList ["x".toList, "y".toList, "z".toList] []).Nodup ∧
    (([] : Str) = [] → (createTodoList ["x".toList, "y".toList, "z".toList] []).length =
      ["x".toList, "y".toList, "z".toList].length *
        (["x".toList, "y".toList, "z".toList].length - 1)) ∧
    (([] : Str) ≠ [] → [] ∉ ["x".toList, "y".toList, "z".toList] →
      createTodoList ["x".toList, "y".toList, "z".toList] [] = []) :=
  C5_todo_queue ["x".toList, "y".toList, "z".toList] [] (by decide)

/-! ## DifferThread: one pass through the loop body -/

theorem clearCacheUnlessShared_events (t : DifferThread) (file1 file2 : Str) :
    (clearCacheUnlessShared t file1 file2).events =
      t.events ++ (if t.last_file1 ≠ file1 ∧ t.last_file2 ≠ file2 then [.cacheClear] else []) := by
  unfold clearCacheUnlessShared
  split_ifs <;> simp [DifferThread.emit]

theorem clearCacheUnlessShared_frame (t : DifferThread) (file1 file2 : Str) :
    (clearCacheUnlessShared t file1 file2).last_file1 = t.last_file1 ∧
    (clearCacheUnlessShared t file1 file2).last_file2 = t.last_file2 ∧
    (clearCacheUnlessShared t file1 file2).path_ = t.path_ ∧
    (clearCacheUnlessShared t file1 file2).out_path_ = t.out_path_ := by
  unfold clearCacheUnlessShared
  split_ifs <;> simp [DifferThread.emit]

theorem setupPrimary_events (w : World) (t : DifferThread) (file1 : Str) :
    (setupPrimary w t file1).2.events =
      t.events ++ [if t.last_file1 ≠ file1 then
        Event.read1 (w.JoinPath t.path_ (file1 ++ ".BinExport".toList)) else .resetMatches1] := by
  unfold setupPrimary
  split_ifs
  · dsimp only
    split <;> simp [DifferThread.emit]
  · simp [DifferThread.emit]

theorem setupPrimary_frame (w : World) (t : DifferThread) (file1 : Str) :
    (setupPrimary w t file1).2.last_file1 = t.last_file1 ∧
    (setupPrimary w t file1).2.last_file2 = t.last_file2 ∧
    (setupPrimary w t file1).2.path_ = t.path_ ∧
    (setupPrimary w t file1).2.out_path_ = t.out_path_ := by
  unfold setupPrimary
  split_ifs
  · dsimp only
    split <;> simp [DifferThread.emit]
  · simp [DifferThread.emit]

theorem setupSecondary_events (w : World) (t : DifferThread) (file2 : Str) :
    (setupSecondary w t file2).2.events =
      t.events ++ [if t.last_file2 ≠ file2 then
        Event.read2 (t.path_ ++ "/".toList ++ file2 ++ ".BinExport".toList)
        else .resetMatches2] := by
  unfold setupSecondary
  split_ifs
  · dsimp only
    split <;> simp [DifferThread.emit]
  · simp [DifferThread.emit]

theorem setupSecondary_frame (w : World) (t : DifferThread) (file2 : Str) :
    (setupSecondary w t file2).2.last_file1 = t.last_file1 ∧
    (setupSecondary w t file2).2.last_file2 = t.last_file2 ∧
    (setupSecondary w t file2).2.path_ = t.path_ ∧
    (setupSecondary w t file2).2.out_path_ = t.out_path_ := by
  unfold setupSecondary
  split_ifs
  · dsimp only
    split <;> simp [DifferThread.emit]
  · simp [DifferThread.emit]

/-- The events of the diff-and-write stage are a `diff`, possibly followed by
a `write`. -/
theorem diffAndWrite_events (w : World) (flags : Flags) (t : DifferThread) :
    ∃ tail : List Event, (diffAndWrite w flags t).2.events = t.events ++ tail ∧
      ∀ e ∈ tail, (∃ c1 c2, e = .diff c1 c2) ∨ (∃ wr, e = .write wr) := by
  unfold diffAndWrite
  dsimp only
  split
  · exact ⟨[_], rfl, by simp⟩
  · split
    · exact ⟨[_], rfl, by simp⟩
    · rename_i writer _
      exact ⟨[.diff t.call_graph1 t.call_graph2, .write writer],
        by simp [DifferThread.emit], by simp⟩

/-- The events of the `try` block: the cache is cleared first if neither file
is the remembered one, then the primary is read or reset; the secondary, the
diff and the write follow unless an exception ends the block before. -/
theorem tryBody_events (w : World) (flags : Flags) (t : DifferThread) (file1 file2 : Str) :
    ∃ tail : List Event,
      (tryBody w flags t file1 file2).2.events =
        t.events ++ (if t.last_file1 ≠ file1 ∧ t.last_file2 ≠ file2 then [.cacheClear] else []) ++
          [if t.last_file1 ≠ file1 then
            Event.read1 (w.JoinPath t.path_ (file1 ++ ".BinExport".toList))
            else .resetMatches1] ++ tail ∧
      (∀ e ∈ tail,
        (e = .read2 (t.path_ ++ "/".toList ++ file2 ++ ".BinExport".toList) ∧
            t.last_file2 ≠ file2) ∨
          (e = .resetMatches2 ∧ t.last_file2 = file2) ∨
          (∃ c1 c2, e = .diff c1 c2) ∨ (∃ wr, e = .write wr)) ∧
      ((t.last_file1 = file1 ∨
          ∃ cg, w.Read (w.JoinPath t.path_ (file1 ++ ".BinExport".toList)) = .ok cg) →
        (if t.last_file2 ≠ file2 then
          Event.read2 (t.path_ ++ "/".toList ++ file2 ++ ".BinExport".toList)
          else .resetMatches2) ∈ tail) := by
  unfold tryBody
  dsimp only
  have hc := clearCacheUnlessShared_events t file1 file2
  obtain ⟨hc1, hc2, hc3, hc4⟩ := clearCacheUnlessShared_frame t file1 file2
  generalize clearCacheUnlessShared t file1 file2 = tc at *
  have hp := setupPrimary_events w tc file1
  obtain ⟨hp1, hp2, hp3, hp4⟩ := setupPrimary_frame w tc file1
  have hpr : (setupPrimary w tc file1).1 = none →
      (tc.last_file1 = file1 ∨
        ∃ cg, w.Read (w.JoinPath tc.path_ (file1 ++ ".BinExport".toList)) = .ok cg) := by
    unfold setupPrimary
    split_ifs with h
    · dsimp only
      split
      · rename_i cg hcg
        intro _
        exact Or.inr ⟨cg, hcg⟩
      · simp
    · intro _
      exact Or.inl (not_not.1 h)
  have hpl : (tc.last_file1 = file1 ∨
        ∃ cg, w.Read (w.JoinPath tc.path_ (file1 ++ ".BinExport".toList)) = .ok cg) →
      (setupPrimary w tc file1).1 = none := by
    unfold setupPrimary
    split_ifs with h
    · dsimp only
      rintro (h' | ⟨cg, hcg⟩)
      · exact absurd h' h
      · rw [hcg]
    · intro _
      rfl
  rw [hc1, hc3] at hp hpr hpl
  rw [hc] at hp
  split
  · rename_i e t1 heq
    rw [heq] at hp hpl
    refine ⟨[], by simpa using hp, by simp, ?_⟩
    intro h
    simpa using hpl h
  · rename_i t1 heq
    rw [heq] at hp hp1 hp2 hp3 hp4
    dsimp only at hp hp1 hp2 hp3 hp4
    have hs := setupSecondary_events w t1 file2
    obtain ⟨hs1, hs2, hs3, hs4⟩ := setupSecondary_frame w t1 file2
    rw [hp2, hc2, hp3, hc3, hp] at hs
    have hclass : ∀ e ∈ [if t.last_file2 ≠ file2 then
          Event.read2 (t.path_ ++ "/".toList ++ file2 ++ ".BinExport".toList)
          else Event.resetMatches2],
        (e = .read2 (t.path_ ++ "/".toList ++ file2 ++ ".BinExport".toList) ∧
            t.last_file2 ≠ file2) ∨
          (e = .resetMatches2 ∧ t.last_file2 = file2) ∨
          (∃ c1 c2, e = .diff c1 c2) ∨ (∃ wr, e = .write wr) := by
      intro e he
      rw [List.mem_singleton] at he
      subst he
      split_ifs with h
      · exact Or.inl ⟨rfl, h⟩
      · exact Or.inr (Or.inl ⟨rfl, not_not.1 h⟩)
    split
    · rename_i e t2 heq2
      rw [heq2] at hs
      exact ⟨[_], by simpa using hs, hclass, fun _ => List.mem_singleton.2 rfl⟩
    · rename_i t2 heq2
      rw [heq2] at hs
      dsimp only at hs
      obtain ⟨tail, hd, hdt⟩ := diffAndWrite_events w flags t2
      rw [hs] at hd
      have hfin : ∀ e ∈ [if t.last_file2 ≠ file2 then
            Event.read2 (t.path_ ++ "/".toList ++ file2 ++ ".BinExport".toList)
            else Event.resetMatches2] ++ tail,
          (e = .read2 (t.path_ ++ "/".toList ++ file2 ++ ".BinExport".toList) ∧
              t.last_file2 ≠ file2) ∨
            (e = .resetMatches2 ∧ t.last_file2 = file2) ∨
            (∃ c1 c2, e = .diff c1 c2) ∨ (∃ wr, e = .write wr) := by
        intro e he
        rcases List.mem_append.1 he with h | h
        · exact hclass e h
        · exact Or.inr (Or.inr (hdt e h))
      split
      · rename_i e t3 heq3
        rw [heq3] at hd
        exact ⟨_ ++ tail, by simpa using hd, hfin, fun _ => by simp⟩
      · rename_i t3 heq3
        rw [heq3] at hd
        exact ⟨_ ++ tail, by simpa using hd, hfin, fun _ => by simp⟩

theorem diffAndWrite_frame (w : World) (flags : Flags) (t : DifferThread) :
    (diffAndWrite w flags t).2.path_ = t.path_ ∧
    (diffAndWrite w flags t).2.out_path_ = t.out_path_ := by
  unfold diffAndWrite
  dsimp only
  split
  · simp [DifferThread.emit]
  · split <;> simp [DifferThread.emit]

/-- The `try` block leaves `path_` and `out_path_` alone, and remembers the
pair when it runs to its end. -/
theorem tryBody_frame (w : World) (flags : Flags) (t : DifferThread) (file1 file2 : Str) :
    (tryBody w flags t file1 file2).2.path_ = t.path_ ∧
    (tryBody w flags t file1 file2).2.out_path_ = t.out_path_ ∧
    ((tryBody w flags t file1 file2).1 = none →
      (tryBody w flags t file1 file2).2.last_file1 = file1 ∧
      (tryBody w flags t file1 file2).2.last_file2 = file2) := by
  unfold tryBody
  dsimp only
  obtain ⟨-, -, hc3, hc4⟩ := clearCacheUnlessShared_frame t file1 file2
  generalize clearCacheUnlessShared t file1 file2 = tc at *
  obtain ⟨-, -, hp3, hp4⟩ := setupPrimary_frame w tc file1
  split
  · rename_i e t1 heq
    rw [heq] at hp3 hp4
    exact ⟨hp3.trans hc3, hp4.trans hc4, by simp⟩
  · rename_i t1 heq
    rw [heq] at hp3 hp4
    dsimp only at hp3 hp4
    obtain ⟨-, -, hs3, hs4⟩ := setupSecondary_frame w t1 file2
    split
    · rename_i e t2 heq2
      rw [heq2] at hs3 hs4
      exact ⟨hs3.trans (hp3.trans hc3), hs4.trans (hp4.trans hc4), by simp⟩
    · rename_i t2 heq2
      rw [heq2] at hs3 hs4
      dsimp only at hs3 hs4
      obtain ⟨hd3, hd4⟩ := diffAndWrite_frame w flags t2
      split
      · rename_i e t3 heq3
        rw [heq3] at hd3 hd4
        exact ⟨hd3.trans (hs3.trans (hp3.trans hc3)), hd4.trans (hs4.trans (hp4.trans hc4)),
          by simp⟩
      · rename_i t3 heq3
        rw [heq3] at hd3 hd4
        exact ⟨hd3.trans (hs3.trans (hp3.trans hc3)), hd4.trans (hs4.trans (hp4.trans hc4)),
          by simp⟩

/-- What the loop body does with the outcome of its `try` block. -/
theorem processPair_spec (w : World) (flags : Flags) (t : DifferThread) (file1 file2 : Str) :
    (processPair w flags t file1 file2).path_ = t.path_ ∧
    (processPair w flags t file1 file2).out_path_ = t.out_path_ ∧
    ((tryBody w flags t file1 file2).1 = none →
      (processPair w flags t file1 file2).pc = .atCheck ∧
      (processPair w flags t file1 file2).last_file1 = file1 ∧
      (processPair w flags t file1 file2).last_file2 = file2 ∧
      (processPair w flags t file1 file2).events = (tryBody w flags t file1 file2).2.events) ∧
    (∀ e, (tryBody w flags t file1 file2).1 = some e → e.isStd = true →
      (processPair w flags t file1 file2).pc = .atCheck ∧
      (processPair w flags t file1 file2).last_file1 = [] ∧
      (processPair w flags t file1 file2).last_file2 = [] ∧
      (processPair w flags t file1 file2).events =
        (tryBody w flags t file1 file2).2.events ++
          [if e = .bad_alloc then .logOutOfMemory file1 file2 else .logError file1 file2]) ∧
    ((tryBody w flags t file1 file2).1 = some .non_std →
      (processPair w flags t file1 file2).pc = .crashed ∧
      (processPair w flags t file1 file2).events = (tryBody w flags t file1 file2).2.events) := by
  obtain ⟨hf1, hf2, hf3⟩ := tryBody_frame w flags t file1 file2
  unfold processPair
  split
  · rename_i t1 heq
    rw [heq] at hf1 hf2 hf3
    simp only [heq, true_implies, reduceCtorEq, false_implies, implies_true, and_true] at hf3 ⊢
    exact ⟨hf1, hf2, trivial, hf3.1, hf3.2⟩
  · rename_i t1 heq
    rw [heq] at hf1 hf2
    simp only [heq, DifferThread.emit, reduceCtorEq, false_implies, Option.some.injEq, true_and,
      and_true]
    refine ⟨hf1, hf2, ?_⟩
    rintro e rfl -
    simp
  · rename_i t1 heq
    rw [heq] at hf1 hf2
    simp only [heq, reduceCtorEq, false_implies, Option.some.injEq, true_and, and_true,
      true_implies]
    refine ⟨hf1, hf2, ?_⟩
    rintro e rfl h
    simp [Exception.isStd] at h
  · rename_i e t1 hne1 hne2 heq
    rw [heq] at hf1 hf2
    simp only [heq, DifferThread.emit, reduceCtorEq, false_implies, Option.some.injEq, true_and,
      and_true]
    refine ⟨hf1, hf2, ?_, ?_⟩
    · rintro e' rfl -
      have : e ≠ .bad_alloc := fun h => hne1 h
      simp [this]
    · intro h
      exact absurd h hne2

/-! ## DifferThread: the steps of a worker -/

theorem workerStep_processing (w : World) (flags : Flags) (sh : Shared) (t : DifferThread)
    (file1 file2 : Str) (hpc : t.pc = .processing file1 file2) :
    (workerStep w flags sh t).2 = processPair w flags t file1 file2 := by
  unfold workerStep
  rw [hpc]

theorem workerStep_atCheck (w : World) (flags : Flags) (sh : Shared) (t : DifferThread)
    (hpc : t.pc = .atCheck) (hquit : sh.g_wants_to_quit = false) :
    (workerStep w flags sh t).1 = sh ∧
    (workerStep w flags sh t).2 = { t with pc := .atPop } := by
  unfold workerStep
  rw [hpc]
  dsimp only
  rw [hquit]
  exact ⟨rfl, rfl⟩

theorem workerStep_atCheck_quit (w : World) (flags : Flags) (sh : Shared) (t : DifferThread)
    (hpc : t.pc = .atCheck) (hquit : sh.g_wants_to_quit = true) :
    (workerStep w flags sh t).1 = sh ∧
    (workerStep w flags sh t).2 = { t with pc := .done } := by
  unfold workerStep
  rw [hpc]
  dsimp only
  rw [hquit]
  exact ⟨rfl, rfl⟩

theorem workerStep_atPop (w : World) (flags : Flags) (sh : Shared) (t : DifferThread)
    (file1 file2 : Str) (rest : TFiles) (hpc : t.pc = .atPop)
    (hqueue : sh.file_queue = (file1, file2) :: rest) :
    (workerStep w flags sh t).1 = { sh with file_queue := rest } ∧
    (workerStep w flags sh t).2 =
      { t with events := t.events ++ [.pop file1 file2], pc := .processing file1 file2 } := by
  unfold workerStep
  rw [hpc]
  dsimp only
  rw [hqueue]
  exact ⟨rfl, rfl⟩

/-- After the `try` block a handler may add its log line, nothing else. -/
theorem processPair_log (w : World) (flags : Flags) (t : DifferThread) (file1 file2 : Str) :
    ∃ log : List Event,
      (processPair w flags t file1 file2).events =
        (tryBody w flags t file1 file2).2.events ++ log ∧
      ∀ e ∈ log, e = .logOutOfMemory file1 file2 ∨ e = .logError file1 file2 := by
  obtain ⟨-, -, hok, herr, hnon⟩ := processPair_spec w flags t file1 file2
  rcases hres : (tryBody w flags t file1 file2).1 with _ | e
  · exact ⟨[], by simpa using (hok hres).2.2.2, by simp⟩
  · by_cases hstd : e.isStd = true
    · refine ⟨_, (herr e hres hstd).2.2.2, ?_⟩
      intro e' he'
      rw [List.mem_singleton] at he'
      subst he'
      split_ifs
      · exact Or.inl rfl
      · exact Or.inr rfl
    · have he : e = .non_std := by
        cases e <;> simp [Exception.isStd] at hstd ⊢
      subst he
      exact ⟨[], by simpa using (hnon hres).2, by simp⟩

/-- The events a worker adds while it processes a popped pair: the cache is
cleared, as the first thing, exactly when neither file is the remembered
one. -/
theorem processPair_cacheClear (w : World) (flags : Flags) (t : DifferThread)
    (file1 file2 : Str) :
    ∃ ev : List Event, (processPair w flags t file1 file2).events = t.events ++ ev ∧
      (ev.head? = some .cacheClear ↔ (t.last_file1 ≠ file1 ∧ t.last_file2 ≠ file2)) ∧
      (.cacheClear ∈ ev ↔ (t.last_file1 ≠ file1 ∧ t.last_file2 ≠ file2)) := by
  obtain ⟨tail, hev, hclass, -⟩ := tryBody_events w flags t file1 file2
  obtain ⟨log, hlogev, hlogcl⟩ := processPair_log w flags t file1 file2
  have hlognot : Event.cacheClear ∉ log := by
    intro hmem
    rcases hlogcl _ hmem with h | h <;> exact Event.noConfusion h
  have htail : Event.cacheClear ∉ tail := by
    intro hmem
    rcases hclass _ hmem with h | h | ⟨c1, c2, h⟩ | ⟨wr, h⟩
    · exact Event.noConfusion h.1
    · exact Event.noConfusion h.1
    · exact Event.noConfusion h
    · exact Event.noConfusion h
  rw [hev] at hlogev
  refine ⟨(if t.last_file1 ≠ file1 ∧ t.last_file2 ≠ file2 then [Event.cacheClear] else []) ++
    ([if t.last_file1 ≠ file1 then
        Event.read1 (w.JoinPath t.path_ (file1 ++ ".BinExport".toList))
      else Event.resetMatches1] ++ (tail ++ log)),
    by rw [hlogev]; simp only [List.append_assoc], ?_, ?_⟩
  · by_cases hc : t.last_file1 ≠ file1 ∧ t.last_file2 ≠ file2
    · simp [hc]
    · simp only [hc, if_false, List.nil_append, iff_false]
      split_ifs <;> simp
  · by_cases hc : t.last_file1 ≠ file1 ∧ t.last_file2 ≠ file2
    · simp [hc]
    · simp only [hc, if_false, List.nil_append, iff_false]
      intro hmem
      rcases List.mem_append.1 hmem with h | h
      · split_ifs at h <;> simp at h
      · rcases List.mem_append.1 h with h | h
        · exact htail h
        · exact hlognot h

/-- C6: a worker that has processed the pair `(last1, last2)` to the end and
then dequeues `(file1, file2)` clears its instruction cache, before anything
else it does for the new pair, exactly when `file1 ≠ last1` and
`file2 ≠ last2`; the cache is kept whenever `file1 = last1` or
`file2 = last2`. -/
theorem C6_cache_cleared_iff (w1 w2 w3 w4 : World) (flags : Flags) (sh1 sh2 sh3 sh4 : Shared)
    (t : DifferThread) (last1 last2 file1 file2 : Str) (rest : TFiles)
    (hpc : t.pc = .processing last1 last2)
    (hok : (tryBody w1 flags t last1 last2).1 = none)
    (hquit : sh2.g_wants_to_quit = false)
    (hqueue : sh3.file_queue = (file1, file2) :: rest) :
    let t3 := (workerStep w3 flags sh3
      (workerStep w2 flags sh2 (workerStep w1 flags sh1 t).2).2).2
    let t4 := (workerStep w4 flags sh4 t3).2
    t3.pc = .processing file1 file2 ∧
    ∃ ev : List Event, t4.events = t3.events ++ ev ∧
      (ev.head? = some .cacheClear ↔ (file1 ≠ last1 ∧ file2 ≠ last2)) ∧
      (.cacheClear ∈ ev ↔ (file1 ≠ last1 ∧ file2 ≠ last2)) := by
  intro t3 t4
  obtain ⟨-, -, hokspec, -, -⟩ := processPair_spec w1 flags t last1 last2
  obtain ⟨h1pc, h1l1, h1l2, -⟩ := hokspec hok
  have e1 := workerStep_processing w1 flags sh1 t last1 last2 hpc
  have e2 := (workerStep_atCheck w2 flags sh2 (workerStep w1 flags sh1 t).2
    (by rw [e1]; exact h1pc) hquit).2
  have e3 := (workerStep_atPop w3 flags sh3
    (workerStep w2 flags sh2 (workerStep w1 flags sh1 t).2).2 file1 file2 rest
    (by rw [e2]) hqueue).2
  have h3pc : t3.pc = .processing file1 file2 := by
    simp only [t3, e3]
  have h3l1 : t3.last_file1 = last1 := by
    show (workerStep w3 flags sh3 _).2.last_file1 = last1
    rw [e3]
    dsimp only
    rw [e2]
    dsimp only
    rw [e1]
    exact h1l1
  have h3l2 : t3.last_file2 = last2 := by
    show (workerStep w3 flags sh3 _).2.last_file2 = last2
    rw [e3]
    dsimp only
    rw [e2]
    dsimp only
    rw [e1]
    exact h1l2
  refine ⟨h3pc, ?_⟩
  have e4 := workerStep_processing w4 flags sh4 t3 file1 file2 h3pc
  obtain ⟨ev, hev, hhead, hmem⟩ := processPair_cacheClear w4 flags t3 file1 file2
  rw [h3l1, h3l2] at hhead hmem
  refine ⟨ev, by simp only [t4, e4, hev], ?_, ?_⟩
  · rw [hhead]
    constructor <;> exact fun h => ⟨Ne.symm h.1, Ne.symm h.2⟩
  · rw [hmem]
    constructor <;> exact fun h => ⟨Ne.symm h.1, Ne.symm h.2⟩

theorem C6_cache_cleared_iff_witness :
    let t3 := (workerStep goodWorld batchFlags (sharedWith [("a".toList, "c".toList)] false)
      (workerStep goodWorld batchFlags (sharedWith [("a".toList, "c".toList)] false)
        (workerStep goodWorld batchFlags (sharedWith [("a".toList, "c".toList)] false)
          (workerHolding "a".toList "b".toList)).2).2).2
    let t4 := (workerStep goodWorld batchFlags (sharedWith [] false) t3).2
    t3.pc = .processing "a".toList "c".toList ∧
    ∃ ev : List Event, t4.events = t3.events ++ ev ∧
      (ev.head? = some .cacheClear ↔ ("a".toList ≠ "a".toList ∧ "c".toList ≠ "b".toList)) ∧
      (.cacheClear ∈ ev ↔ ("a".toList ≠ "a".toList ∧ "c".toList ≠ "b".toList)) :=
  C6_cache_cleared_iff goodWorld goodWorld goodWorld goodWorld batchFlags
    (sharedWith [("a".toList, "c".toList)] false) (sharedWith [("a".toList, "c".toList)] false)
    (sharedWith [("a".toList, "c".toList)] false) (sharedWith [] false)
    (workerHolding "a".toList "b".toList) "a".toList "b".toList "a".toList "c".toList []
    rfl rfl rfl rfl

/-- C7: when the processing of a pair throws `std::bad_alloc` or another
`std::exception`, the worker stays alive, goes to its loop test and forgets
both remembered file names; if then the quit flag is not set and the queue
holds a pair of non-empty names, the worker pops it, clears the instruction
cache and reads the primary from file, and (if that read succeeds) reads the
secondary from file; it resets neither program in place. -/
theorem C7_failing_pair_abandoned (w1 w2 w3 w4 : World) (flags : Flags)
    (sh1 sh2 sh3 sh4 : Shared) (t : DifferThread) (file1 file2 next1 next2 : Str)
    (rest : TFiles) (e : Exception)
    (hpc : t.pc = .processing file1 file2)
    (hthrow : (tryBody w1 flags t file1 file2).1 = some e)
    (hstd : e.isStd = true)
    (hquit : sh2.g_wants_to_quit = false)
    (hqueue : sh3.file_queue = (next1, next2) :: rest)
    (hnext1 : next1 ≠ []) (hnext2 : next2 ≠ []) :
    let r1 := workerStep w1 flags sh1 t
    let t2 := (workerStep w2 flags sh2 r1.2).2
    let t3 := (workerStep w3 flags sh3 t2).2
    let t4 := (workerStep w4 flags sh4 t3).2
    r1.1 = sh1 ∧ r1.2.pc = .atCheck ∧ r1.2.last_file1 = [] ∧ r1.2.last_file2 = [] ∧
    t2.pc = .atPop ∧ t3.pc = .processing next1 next2 ∧
    ∃ tail : List Event,
      t4.events = t2.events ++
        [.pop next1 next2, .cacheClear,
          .read1 (w4.JoinPath t.path_ (next1 ++ ".BinExport".toList))] ++ tail ∧
      Event.resetMatches1 ∉ tail ∧ Event.resetMatches2 ∉ tail ∧
      ((∃ cg, w4.Read (w4.JoinPath t.path_ (next1 ++ ".BinExport".toList)) = .ok cg) →
        Event.read2 (t.path_ ++ "/".toList ++ next2 ++ ".BinExport".toList) ∈ tail) := by
  intro r1 t2 t3 t4
  obtain ⟨hpath, -, -, herrspec, -⟩ := processPair_spec w1 flags t file1 file2
  obtain ⟨h1pc, h1l1, h1l2, -⟩ := herrspec e hthrow hstd
  have e1 : r1.2 = processPair w1 flags t file1 file2 :=
    workerStep_processing w1 flags sh1 t file1 file2 hpc
  have hsh : r1.1 = sh1 := by
    show (workerStep w1 flags sh1 t).1 = sh1
    have hne : (Pc.atCheck != Pc.crashed) = true := by decide
    unfold workerStep
    rw [hpc]
    simp only [h1pc, hne, Bool.and_true]
  have e2 : t2 = { r1.2 with pc := .atPop } :=
    (workerStep_atCheck w2 flags sh2 r1.2 (by rw [e1]; exact h1pc) hquit).2
  have e3 : t3 =
      { t2 with events := t2.events ++ [.pop next1 next2], pc := .processing next1 next2 } :=
    (workerStep_atPop w3 flags sh3 t2 next1 next2 rest (by rw [e2]) hqueue).2
  have h3pc : t3.pc = .processing next1 next2 := by rw [e3]
  have h3l1 : t3.last_file1 = [] := by rw [e3, e2, e1]; exact h1l1
  have h3l2 : t3.last_file2 = [] := by rw [e3, e2, e1]; exact h1l2
  have h3path : t3.path_ = t.path_ := by rw [e3, e2, e1]; exact hpath
  have h3ev : t3.events = t2.events ++ [.pop next1 next2] := by rw [e3]
  refine ⟨hsh, by rw [e1]; exact h1pc, by rw [e1]; exact h1l1, by rw [e1]; exact h1l2,
    by rw [e2], h3pc, ?_⟩
  have e4 : t4 = processPair w4 flags t3 next1 next2 :=
    workerStep_processing w4 flags sh4 t3 next1 next2 h3pc
  obtain ⟨tail, hev, hclass, hsec⟩ := tryBody_events w4 flags t3 next1 next2
  obtain ⟨log, hlogev, hlogcl⟩ := processPair_log w4 flags t3 next1 next2
  have hc1 : t3.last_file1 ≠ next1 := by rw [h3l1]; exact Ne.symm hnext1
  have hc2 : t3.last_file2 ≠ next2 := by rw [h3l2]; exact Ne.symm hnext2
  simp only [hc1, hc2, ne_eq, not_false_eq_true, and_self, if_true, h3path, h3ev] at hev hclass hsec
  refine ⟨tail ++ log, ?_, ?_, ?_, ?_⟩
  · rw [e4, hlogev, hev]
    simp only [List.append_assoc, List.cons_append, List.nil_append]
  · intro hmem
    rcases List.mem_append.1 hmem with h | h
    · rcases hclass _ h with h | h | ⟨c1, c2, h⟩ | ⟨wr, h⟩
      · exact Event.noConfusion h.1
      · exact Event.noConfusion h.1
      · exact Event.noConfusion h
      · exact Event.noConfusion h
    · rcases hlogcl _ h with h | h <;> exact Event.noConfusion h
  · intro hmem
    rcases List.mem_append.1 hmem with h | h
    · rcases hclass _ h with h | h | ⟨c1, c2, h⟩ | ⟨wr, h⟩
      · exact Event.noConfusion h.1
      · exact h.2
      · exact Event.noConfusion h
      · exact Event.noConfusion h
    · rcases hlogcl _ h with h | h <;> exact Event.noConfusion h
  · intro hread
    exact List.mem_append_left _ (hsec (Or.inr hread))

theorem C7_failing_pair_abandoned_witness :
    let r1 := workerStep outOfMemoryWorld batchFlags (sharedWith [("a".toList, "c".toList)] false)
      (workerHolding "a".toList "b".toList)
    let t2 := (workerStep goodWorld batchFlags (sharedWith [("a".toList, "c".toList)] false)
      r1.2).2
    let t3 := (workerStep goodWorld batchFlags (sharedWith [("a".toList, "c".toList)] false)
      t2).2
    let t4 := (workerStep goodWorld batchFlags (sharedWith [] false) t3).2
    r1.1 = sharedWith [("a".toList, "c".toList)] false ∧ r1.2.pc = .atCheck ∧
    r1.2.last_file1 = [] ∧ r1.2.last_file2 = [] ∧
    t2.pc = .atPop ∧ t3.pc = .processing "a".toList "c".toList ∧
    ∃ tail : List Event,
      t4.events = t2.events ++
        [.pop "a".toList "c".toList, .cacheClear,
          .read1 (goodWorld.JoinPath (workerHolding "a".toList "b".toList).path_
            ("a".toList ++ ".BinExport".toList))] ++ tail ∧
      Event.resetMatches1 ∉ tail ∧ Event.resetMatches2 ∉ tail ∧
      ((∃ cg, goodWorld.Read (goodWorld.JoinPath (workerHolding "a".toList "b".toList).path_
          ("a".toList ++ ".BinExport".toList)) = .ok cg) →
        Event.read2 ((workerHolding "a".toList "b".toList).path_ ++ "/".toList ++ "c".toList ++
          ".BinExport".toList) ∈ tail) :=
  C7_failing_pair_abandoned outOfMemoryWorld goodWorld goodWorld goodWorld batchFlags
    (sharedWith [("a".toList, "c".toList)] false) (sharedWith [("a".toList, "c".toList)] false)
    (sharedWith [("a".toList, "c".toList)] false) (sharedWith [] false)
    (workerHolding "a".toList "b".toList) "a".toList "b".toList "a".toList "c".toList []
    .bad_alloc rfl rfl rfl rfl rfl (by decide) (by decide)

/-! ## main: start-up -/

/-- C8: if the default call-graph step list or the default basic-block step
list is empty, `main` returns exit code 1 and does nothing but log the error:
it reads no program, runs no diff and writes no result. -/
theorem C8_empty_step_list_fatal (flags : Flags) (env : MainEnv)
    (h : env.DefaultMatchingSteps = [] ∨ env.DefaultMatchingStepsBasicBlock = []) :
    (main flags env).exit_code = 1 ∧
    ∃ what : Str, (main flags env).events = [.logError (.runtime_error what)] := by
  have hempty :
      (env.DefaultMatchingSteps.isEmpty || env.DefaultMatchingStepsBasicBlock.isEmpty) = true := by
    rcases h with h | h <;> simp [h]
  unfold main mainTry
  cases hdoc : env.config_document
  · simp [Exception.isStd]
  · simp [hempty, Exception.isStd]

theorem C8_empty_step_list_fatal_witness :
    (main singleDiffFlags emptyStepsEnv).exit_code = 1 ∧
    ∃ what : Str,
      (main singleDiffFlags emptyStepsEnv).events = [.logError (.runtime_error what)] :=
  C8_empty_step_list_fatal singleDiffFlags emptyStepsEnv (Or.inl rfl)

/-! ## BatchDiff: the number of workers -/

theorem toUnsigned_toInt (n : Nat) : toUnsigned (toInt n) = n % 2 ^ 32 := by
  unfold toUnsigned toInt
  split_ifs <;> omega

/-- C9 (as stated, refuted): with the entry `Threads/@use = 0` (on a machine
reporting 8 hardware threads), or without an entry on a machine whose hardware
concurrency is reported as 0, `num_threads` is 0: `BatchDiff` starts no worker
although the queue holds two pairs, and the queue stays as it is. -/
theorem C9_counterexample :
    numThreads (some 0) 8 = 0 ∧ numThreads none 0 = 0 ∧
    (BatchDiff batchFlags ["a".toList, "b".toList] [] "d".toList (some 0) 8 false 0).threads.length
      = 0 ∧
    (BatchDiff batchFlags ["a".toList, "b".toList] [] "d".toList (some 0) 8 false
      0).shared.file_queue = [("a".toList, "b".toList), ("b".toList, "a".toList)] ∧
    ((BatchDiff batchFlags ["a".toList, "b".toList] [] "d".toList (some 0) 8 false 0).run
      batchFlags [.thread 0 goodWorld, .thread 0 goodWorld, .thread 1 goodWorld]).shared.file_queue
      = [("a".toList, "b".toList), ("b".toList, "a".toList)] := by
  refine ⟨by decide, by decide, rfl, rfl, rfl⟩

/-- Without workers no action changes the queue. -/
theorem step_no_threads (flags : Flags) (s : System) (a : Action) (h : s.threads = []) :
    (s.step flags a).threads = [] ∧
      (s.step flags a).shared.file_queue = s.shared.file_queue := by
  cases a with
  | sigint =>
    unfold System.step SignalHandler
    dsimp only
    split_ifs <;> exact ⟨h, rfl⟩
  | thread j w =>
    have hj : s.threads[j]? = none := by rw [h]; rfl
    unfold System.step
    dsimp only
    rw [hj]
    split_ifs <;> exact ⟨h, rfl⟩

theorem run_no_threads (flags : Flags) (schedule : List Action) :
    ∀ s : System, s.threads = [] →
      (s.run flags schedule).shared.file_queue = s.shared.file_queue := by
  induction schedule with
  | nil => intro s _; rfl
  | cons a rest ih =>
    intro s h
    obtain ⟨h1, h2⟩ := step_no_threads flags s a h
    show ((s.step flags a).run flags rest).shared.file_queue = s.shared.file_queue
    rw [ih _ h1, h2]

/-- C9 (amended): `BatchDiff` starts `num_threads` differ workers (none with
`--export`), where `num_threads` is the `Threads/@use` entry if the
configuration has one and the reported hardware concurrency otherwise, as an
unsigned 32-bit number; it is at least 1 exactly when that number is not 0,
and when it is 0 the queue stays as it is, whatever happens. -/
theorem C9_num_threads (flags : Flags) (diff_files : TUniqueFiles)
    (reference_file out_path : Str) (threads_use : Option Int) (num_hardware_threads : Nat)
    (g_wants_to_quit : Bool) (signal_count : Nat) :
    (BatchDiff flags diff_files reference_file out_path threads_use num_hardware_threads
        g_wants_to_quit signal_count).threads.length =
      (if flags.FLAGS_export then 0 else numThreads threads_use num_hardware_threads) ∧
    numThreads threads_use num_hardware_threads =
      (match threads_use with
        | some v => (v % 2 ^ 32).toNat
        | none => num_hardware_threads % 2 ^ 32) ∧
    (1 ≤ numThreads threads_use num_hardware_threads ↔
      match threads_use with
        | some v => v % 2 ^ 32 ≠ 0
        | none => num_hardware_threads % 2 ^ 32 ≠ 0) ∧
    (numThreads threads_use num_hardware_threads = 0 → ∀ schedule : List Action,
      ((BatchDiff flags diff_files reference_file out_path threads_use num_hardware_threads
        g_wants_to_quit signal_count).run flags schedule).shared.file_queue =
        createTodoList diff_files reference_file) := by
  have hnum : numThreads threads_use num_hardware_threads =
      (match threads_use with
        | some v => (v % 2 ^ 32).toNat
        | none => num_hardware_threads % 2 ^ 32) := by
    cases threads_use with
    | none => exact toUnsigned_toInt num_hardware_threads
    | some v => rfl
  refine ⟨?_, hnum, ?_, ?_⟩
  · unfold BatchDiff
    dsimp only
    split_ifs <;> simp
  · rw [hnum]
    cases threads_use with
    | none => dsimp only; omega
    | some v => dsimp only; omega
  · intro hzero schedule
    rw [run_no_threads]
    · rfl
    · unfold BatchDiff
      dsimp only
      rw [hzero]
      split_ifs <;> rfl

/-! ## DifferThread: the quit flag -/

/-- Processing a popped pair pops nothing. -/
theorem processPair_popCount (w : World) (flags : Flags) (t : DifferThread)
    (file1 file2 : Str) :
    (processPair w flags t file1 file2).popCount = t.popCount := by
  obtain ⟨tail, hev, hclass, -⟩ := tryBody_events w flags t file1 file2
  obtain ⟨log, hlogev, hlogcl⟩ := processPair_log w flags t file1 file2
  have htail : List.countP Event.isPop tail = 0 := by
    rw [List.countP_eq_zero]
    intro e he
    rcases hclass e he with h | h | ⟨c1, c2, h⟩ | ⟨wr, h⟩
    · rw [h.1]; simp [Event.isPop]
    · rw [h.1]; simp [Event.isPop]
    · rw [h]; simp [Event.isPop]
    · rw [h]; simp [Event.isPop]
  have hlog : List.countP Event.isPop log = 0 := by
    rw [List.countP_eq_zero]
    intro e he
    rcases hlogcl e he with h | h <;> (rw [h]; simp [Event.isPop])
  unfold DifferThread.popCount
  rw [hlogev, hev]
  simp only [List.countP_append, htail, hlog, Nat.add_zero]
  have h1 : List.countP Event.isPop
      (if t.last_file1 ≠ file1 ∧ t.last_file2 ≠ file2 then [Event.cacheClear] else []) = 0 := by
    split_ifs <;> simp [Event.isPop]
  have h2 : List.countP Event.isPop
      [if t.last_file1 ≠ file1 then
        Event.read1 (w.JoinPath t.path_ (file1 ++ ".BinExport".toList))
        else Event.resetMatches1] = 0 := by
    split_ifs <;> simp [Event.isPop]
  rw [h1, h2]
  rfl

/-- Processing a popped pair ends at the loop test, or in a crash. -/
theorem processPair_pc (w : World) (flags : Flags) (t : DifferThread) (file1 file2 : Str) :
    (processPair w flags t file1 file2).pc = .atCheck ∨
      (processPair w flags t file1 file2).pc = .crashed := by
  obtain ⟨-, -, hok, herr, hnon⟩ := processPair_spec w flags t file1 file2
  rcases hres : (tryBody w flags t file1 file2).1 with _ | e
  · exact Or.inl (hok hres).1
  · by_cases hstd : e.isStd = true
    · exact Or.inl (herr e hres hstd).1
    · have he : e = .non_std := by
        cases e <;> simp [Exception.isStd] at hstd ⊢
      subst he
      exact Or.inr (hnon hres).1

/-- No step of a worker touches the quit flag. -/
theorem workerStep_quit (w : World) (flags : Flags) (sh : Shared) (t : DifferThread) :
    (workerStep w flags sh t).1.g_wants_to_quit = sh.g_wants_to_quit := by
  unfold workerStep
  split
  · split <;> rfl
  · rfl
  · split_ifs <;> rfl
  · rfl
  · rfl

/-- A step of a worker does not revive the process. -/
theorem workerStep_alive (w : World) (flags : Flags) (sh : Shared) (t : DifferThread)
    (h : (workerStep w flags sh t).1.alive = true) : sh.alive = true := by
  unfold workerStep at h
  split at h
  · split at h <;> exact h
  · simp only [Bool.and_eq_true] at h
    exact h.1
  · split_ifs at h <;> exact h
  · exact h
  · exact h

/-- One step of a worker once the quit flag is set: it pops at most when it
stands at the pop, and it gets closer to leaving the loop. -/
theorem workerStep_after_quit (w : World) (flags : Flags) (sh : Shared) (t : DifferThread)
    (hquit : sh.g_wants_to_quit = true) :
    (workerStep w flags sh t).2.popCount +
        (if (workerStep w flags sh t).2.pc = .atPop then 1 else 0) ≤
      t.popCount + (if t.pc = .atPop then 1 else 0) ∧
    (workerStep w flags sh t).2.pc.stepsToStop ≤ t.pc.stepsToStop - 1 := by
  unfold workerStep
  split
  · rename_i hpc
    split
    · simp [hpc, Pc.stepsToStop, DifferThread.popCount]
    · simp [hpc, Pc.stepsToStop, DifferThread.popCount, DifferThread.emit, Event.isPop]
  · rename_i file1 file2 hpc
    dsimp only
    rw [processPair_popCount]
    rcases processPair_pc w flags t file1 file2 with h | h <;>
      simp [h, hpc, Pc.stepsToStop]
  · rename_i hpc
    simp [hquit, hpc, Pc.stepsToStop, DifferThread.popCount]
  · rename_i hpc
    simp [hpc, Pc.stepsToStop]
  · rename_i hpc
    simp [hpc, Pc.stepsToStop]

theorem SignalHandler_quit (sh : Shared) (h : sh.g_wants_to_quit = true) :
    (SignalHandler sh).g_wants_to_quit = true := by
  unfold SignalHandler
  dsimp only
  split_ifs
  · rfl
  · exact h

theorem SignalHandler_alive (sh : Shared) (h : (SignalHandler sh).alive = true) :
    sh.alive = true := by
  unfold SignalHandler at h
  dsimp only at h
  split_ifs at h
  exact h

theorem step_dead (flags : Flags) (s : System) (a : Action) (h : ¬ s.shared.alive = true) :
    s.step flags a = s := by
  cases a <;> simp [System.step, h]

theorem step_sigint (flags : Flags) (s : System) (h : s.shared.alive = true) :
    s.step flags .sigint = { s with shared := SignalHandler s.shared } := by
  simp [System.step, h]

theorem step_thread_none (flags : Flags) (s : System) (j : Nat) (w : World)
    (hj : s.threads[j]? = none) : s.step flags (.thread j w) = s := by
  simp [System.step, hj]

theorem step_thread_some (flags : Flags) (s : System) (j : Nat) (w : World) (tj : DifferThread)
    (h : s.shared.alive = true) (hj : s.threads[j]? = some tj) :
    s.step flags (.thread j w) =
      { shared := (workerStep w flags s.shared tj).1,
        threads := s.threads.set j (workerStep w flags s.shared tj).2 } := by
  simp [System.step, h, hj]

/-- One action of the system once the quit flag is set, seen from worker `i`. -/
theorem step_after_quit (flags : Flags) (s : System) (a : Action) (i : Nat) (t : DifferThread)
    (hquit : s.shared.g_wants_to_quit = true) (ht : s.threads[i]? = some t) :
    (s.step flags a).shared.g_wants_to_quit = true ∧
    ((s.step flags a).shared.alive = true → s.shared.alive = true) ∧
    ∃ t', (s.step flags a).threads[i]? = some t' ∧
      t'.popCount + (if t'.pc = .atPop then 1 else 0) ≤
        t.popCount + (if t.pc = .atPop then 1 else 0) ∧
      t'.pc.stepsToStop ≤ t.pc.stepsToStop ∧
      (s.shared.alive = true → a.isThread i = true →
        t'.pc.stepsToStop ≤ t.pc.stepsToStop - 1) := by
  by_cases halive : s.shared.alive = true
  · cases a with
    | sigint =>
      rw [step_sigint flags s halive]
      exact ⟨SignalHandler_quit _ hquit, fun _ => halive,
        t, ht, le_refl _, le_refl _, fun _ h => by simp [Action.isThread] at h⟩
    | thread j w =>
      rcases hj : s.threads[j]? with _ | tj
      · rw [step_thread_none flags s j w hj]
        refine ⟨hquit, id, t, ht, le_refl _, le_refl _, fun _ h => ?_⟩
        simp only [Action.isThread, beq_iff_eq] at h
        rw [h, ht] at hj
        cases hj
      · rw [step_thread_some flags s j w tj halive hj]
        refine ⟨by rw [workerStep_quit]; exact hquit, fun _ => halive, ?_⟩
        by_cases hij : j = i
        · subst hij
          rw [ht] at hj
          cases hj
          have hlt : j < s.threads.length := by
            rcases List.getElem?_eq_some.1 ht with ⟨h, -⟩
            exact h
          obtain ⟨hb, hr⟩ := workerStep_after_quit w flags s.shared t hquit
          exact ⟨_, List.getElem?_set_self hlt, hb, le_trans hr (Nat.sub_le _ _),
            fun _ _ => hr⟩
        · refine ⟨t, ?_, le_refl _, le_refl _, fun _ h => ?_⟩
          · show (s.threads.set j _)[i]? = some t
            rw [List.getElem?_set_ne hij]
            exact ht
          · simp only [Action.isThread, beq_iff_eq] at h
            exact absurd h hij
  · rw [step_dead flags s a halive]
    exact ⟨hquit, id, t, ht, le_refl _, le_refl _, fun h _ => absurd h halive⟩

theorem run_cons (flags : Flags) (s : System) (a : Action) (schedule : List Action) :
    s.run flags (a :: schedule) = (s.step flags a).run flags schedule := rfl

/-- A schedule run once the quit flag is set, seen from worker `i`. -/
theorem run_after_quit (flags : Flags) (i : Nat) (schedule : List Action) :
    ∀ (s : System) (t : DifferThread), s.shared.g_wants_to_quit = true →
      s.threads[i]? = some t →
      ((s.run flags schedule).shared.alive = true → s.shared.alive = true) ∧
      ∃ t', (s.run flags schedule).threads[i]? = some t' ∧
        t'.popCount + (if t'.pc = .atPop then 1 else 0) ≤
          t.popCount + (if t.pc = .atPop then 1 else 0) ∧
        ((s.run flags schedule).shared.alive = true →
          t'.pc.stepsToStop ≤ t.pc.stepsToStop - stepsOf i schedule) := by
  induction schedule with
  | nil =>
    intro s t _ ht
    exact ⟨id, t, ht, le_refl _, fun _ => by simp [stepsOf]⟩
  | cons a rest ih =>
    intro s t hquit ht
    obtain ⟨hq1, hal1, t1, ht1, hb1, hr1, hd1⟩ := step_after_quit flags s a i t hquit ht
    obtain ⟨hal2, t2, ht2, hb2, hr2⟩ := ih (s.step flags a) t1 hq1 ht1
    rw [run_cons]
    refine ⟨fun h => hal1 (hal2 h), t2, ht2, le_trans hb2 hb1, fun h => ?_⟩
    have h2 := hr2 h
    have halive := hal1 (hal2 h)
    unfold stepsOf at h2 ⊢
    rw [List.countP_cons]
    by_cases hth : a.isThread i = true
    · have h1 := hd1 halive hth
      simp only [hth, if_true]
      omega
    · simp only [hth]
      simp only [Bool.false_eq_true, if_false, Nat.add_zero]
      omega

/-- C10 (as stated, refuted): a SIGINT arrives before the only worker of a
batch has made its first step, the quit flag is set, and the worker still pops
the pair `(a, b)` from the queue. -/
theorem C10_counterexample :
    ((BatchDiff batchFlags ["a".toList, "b".toList] [] "d".toList (some 1) 8 false 0).step
      batchFlags .sigint).shared.g_wants_to_quit = true ∧
    (((BatchDiff batchFlags ["a".toList, "b".toList] [] "d".toList (some 1) 8 false 0).step
      batchFlags .sigint).threads.map fun t => t.events) = [[]] ∧
    ((((BatchDiff batchFlags ["a".toList, "b".toList] [] "d".toList (some 1) 8 false 0).step
      batchFlags .sigint).step batchFlags (.thread 0 goodWorld)).threads.map fun t => t.events)
      = [[.pop "a".toList "b".toList]] := by
  refine ⟨rfl, rfl, rfl⟩

/-- C10 (amended): once the quit flag is set, a worker that stands at the pop
(at the start of its loop, or back there after a loop test that still saw the
flag unset) pops at most one more pair, and a worker that is processing a
pair or stands at its loop test pops none; while the process lives, three
steps of the worker at most bring it out of its loop. -/
theorem C10_at_most_one_more_pop (flags : Flags) (schedule : List Action) (s : System)
    (i : Nat) (t : DifferThread)
    (hquit : s.shared.g_wants_to_quit = true) (ht : s.threads[i]? = some t) :
    ∃ t', (s.run flags schedule).threads[i]? = some t' ∧
      t'.popCount ≤ t.popCount + (if t.pc = .atPop then 1 else 0) ∧
      ((s.run flags schedule).shared.alive = true → 3 ≤ stepsOf i schedule →
        t'.pc = .done ∨ t'.pc = .crashed) := by
  obtain ⟨-, t', ht', hb, hr⟩ := run_after_quit flags i schedule s t hquit ht
  refine ⟨t', ht', le_trans (Nat.le_add_right _ _) hb, fun halive hsteps => ?_⟩
  have h := hr halive
  have h3 : t.pc.stepsToStop ≤ 3 := by
    cases t.pc <;> simp [Pc.stepsToStop]
  have h0 : t'.pc.stepsToStop = 0 := by omega
  cases hpc : t'.pc <;> simp [hpc, Pc.stepsToStop] at h0 ⊢

theorem C10_at_most_one_more_pop_witness :
    ∃ t', (((BatchDiff batchFlags ["a".toList, "b".toList] [] "d".toList (some 1) 8 true 1).run
        batchFlags [.thread 0 goodWorld, .thread 0 goodWorld, .thread 0 goodWorld,
          .thread 0 goodWorld]).threads[0]? = some t') ∧
      t'.popCount ≤ (DifferThread.create "d".toList "d".toList).popCount +
        (if (DifferThread.create "d".toList "d".toList).pc = .atPop then 1 else 0) ∧
      (((BatchDiff batchFlags ["a".toList, "b".toList] [] "d".toList (some 1) 8 true 1).run
        batchFlags [.thread 0 goodWorld, .thread 0 goodWorld, .thread 0 goodWorld,
          .thread 0 goodWorld]).shared.alive = true →
        3 ≤ stepsOf 0 [.thread 0 goodWorld, .thread 0 goodWorld, .thread 0 goodWorld,
          .thread 0 goodWorld] →
        t'.pc = .done ∨ t'.pc = .crashed) :=
  C10_at_most_one_more_pop batchFlags
    [.thread 0 goodWorld, .thread 0 goodWorld, .thread 0 goodWorld, .thread 0 goodWorld]
    (BatchDiff batchFlags ["a".toList, "b".toList] [] "d".toList (some 1) 8 true 1) 0
    (DifferThread.create "d".toList "d".toList) rfl rfl

/-! ## The chain of result writers -/

/-- A returned name ends in the extension. -/
theorem GetTruncatedFilename_suffix (path part1 middle part2 extension r : Str)
    (h : GetTruncatedFilename path part1 middle part2 extension = .ok r) :
    extension <:+ r := by
  simp only [GetTruncatedFilename] at h
  split_ifs at h <;>
    · rw [← Except.ok.inj h]
      exact List.suffix_append _ _

/-- Both file names of the chain have the same fixed fragments: the output
directory, the slash, `_vs_` and an extension of eight characters. -/
theorem chain_fixed_length (out_dir extension : Str) (h : extension.length = 8) :
    (out_dir ++ "/".toList).length + "_vs_".toList.length + extension.length =
      out_dir.length + 13 := by
  have h1 : "/".toList.length = 1 := rfl
  have h2 : "_vs_".toList.length = 4 := rfl
  rw [List.length_append, h1, h2, h]

/-- Whether a name for the chain can be made does not depend on the
extension. -/
theorem chain_name_ok_iff (out_dir filename1 filename2 extension : Str)
    (h : extension.length = 8) :
    (∃ r, GetTruncatedFilename (out_dir ++ "/".toList) filename1 "_vs_".toList filename2
        extension = .ok r) ↔
      (out_dir.length + 13 < 250 ∨
        (out_dir.length + 13 = 250 ∧ (filename1 = [] ∨ filename2 = []))) := by
  have hiff := GetTruncatedFilename_error_iff (out_dir ++ "/".toList) filename1 "_vs_".toList
    filename2 extension
  rw [chain_fixed_length out_dir extension h] at hiff
  constructor
  · rintro ⟨r, hr⟩
    by_contra hcon
    push_neg at hcon
    obtain ⟨hge, hboth⟩ := hcon
    have herr := hiff.2 (by
      rcases Nat.lt_or_ge 250 (out_dir.length + 13) with hg | hle
      · exact Or.inl hg
      · have he : out_dir.length + 13 = 250 := by omega
        exact Or.inr ⟨he, hboth he⟩)
    rw [hr] at herr
    cases herr
  · intro hcase
    rcases GetTruncatedFilename_total (out_dir ++ "/".toList) filename1 "_vs_".toList filename2
      extension with hok | herr
    · exact hok
    · exfalso
      rcases hiff.1 herr with hgt | ⟨heq, hp1, hp2⟩
      · rcases hcase with hl | ⟨he, -⟩ <;> omega
      · rcases hcase with hl | ⟨-, hp | hp⟩
        · omega
        · exact hp1 hp
        · exact hp2 hp

/-- The chain when both names can be made: the log writer if `log_format` is
set, then the database writer if `bin_format` is set or the chain is still
empty. -/
theorem makeChainWriter_ok (flags : Flags) (out_dir filename1 filename2 f g : Str)
    (hf : GetTruncatedFilename (out_dir ++ "/".toList) filename1 "_vs_".toList filename2
      ".results".toList = .ok f)
    (hg : GetTruncatedFilename (out_dir ++ "/".toList) filename1 "_vs_".toList filename2
      ".BinDiff".toList = .ok g) :
    makeChainWriter flags out_dir filename1 filename2 =
      .ok ((if flags.FLAGS_log_format = true then [Writer.ResultsLogWriter f] else []) ++
        (if flags.FLAGS_bin_format = true ∨ flags.FLAGS_log_format = false then
          [Writer.DatabaseWriter g] else [])) := by
  simp only [makeChainWriter, hf, hg]
  cases hlog : flags.FLAGS_log_format <;> cases hbin : flags.FLAGS_bin_format <;>
    simp [ChainWriter.Add, ChainWriter.IsEmpty]

/-- No chain is built when no name can be made. -/
theorem makeChainWriter_error (flags : Flags) (out_dir filename1 filename2 : Str)
    (e1 e2 : Exception)
    (hf : GetTruncatedFilename (out_dir ++ "/".toList) filename1 "_vs_".toList filename2
      ".results".toList = .error e1)
    (hg : GetTruncatedFilename (out_dir ++ "/".toList) filename1 "_vs_".toList filename2
      ".BinDiff".toList = .error e2) :
    ∃ e, makeChainWriter flags out_dir filename1 filename2 = .error e := by
  simp only [makeChainWriter, hf, hg]
  cases hlog : flags.FLAGS_log_format <;> cases hbin : flags.FLAGS_bin_format <;>
    simp [ChainWriter.Add, ChainWriter.IsEmpty]

/-- In the worker the chain that was built is written. -/
theorem diffAndWrite_writes (w : World) (flags : Flags) (t : DifferThread)
    (writer : ChainWriter) (hdiff : w.Diff t.call_graph1 t.call_graph2 = none)
    (hchain : makeChainWriter flags t.out_path_ t.call_graph1.filename
      t.call_graph2.filename = .ok writer) :
    (diffAndWrite w flags t).2.events =
      t.events ++ [.diff t.call_graph1 t.call_graph2, .write writer] := by
  unfold diffAndWrite
  simp [DifferThread.emit, hdiff, hchain]

/-- In `main` a non-empty chain that was built is written. -/
theorem mainSingleDiff_writes (flags : Flags) (env : MainEnv) (output_dir : Str)
    (s : MainState) (call_graph1 call_graph2 : CallGraph) (writer : ChainWriter)
    (h1 : s.call_graph1 = some call_graph1) (h2 : s.call_graph2 = some call_graph2)
    (hdiff : env.world.Diff call_graph1 call_graph2 = none)
    (hchain : makeChainWriter flags output_dir call_graph1.filename call_graph2.filename =
      .ok writer)
    (hne : writer ≠ []) :
    (mainSingleDiff flags env output_dir s).2.events =
      s.events ++ [.diff call_graph1 call_graph2, .write writer] := by
  have hemp : writer.IsEmpty = false := by
    cases writer with
    | nil => exact absurd rfl hne
    | cons a l => rfl
  unfold mainSingleDiff
  rw [h1, h2]
  dsimp only
  rw [hdiff]
  dsimp only
  rw [hchain]
  dsimp only
  rw [hemp]
  simp only [Bool.not_false, if_true]
  split <;> simp [MainState.emit]

/-- C11: for every combination of `log_format` and `bin_format`, the chain of
result writers that is built is non-empty; it contains the log writer (file
ending in `.results`) exactly when `log_format` is set, and the database
writer (file ending in `.BinDiff`) exactly when `bin_format` is set or
`log_format` is not set; without a format flag it is the database writer
alone, with both flags the log writer followed by the database writer. The
chain is built whenever the two file names can be made (the output directory
has fewer than 237 characters, or exactly 237 and one call graph has no
name), and it is this chain that the worker and `main` write. -/
theorem C11_writer_chain (flags : Flags) (out_dir filename1 filename2 : Str) :
    ((∃ writer, makeChainWriter flags out_dir filename1 filename2 = .ok writer) ↔
      (out_dir.length + 13 < 250 ∨
        (out_dir.length + 13 = 250 ∧ (filename1 = [] ∨ filename2 = [])))) ∧
    ∀ writer : ChainWriter, makeChainWriter flags out_dir filename1 filename2 = .ok writer →
      writer ≠ [] ∧
      ((∃ f, Writer.ResultsLogWriter f ∈ writer) ↔ flags.FLAGS_log_format = true) ∧
      ((∃ g, Writer.DatabaseWriter g ∈ writer) ↔
        (flags.FLAGS_bin_format = true ∨ flags.FLAGS_log_format = false)) ∧
      (∀ f, Writer.ResultsLogWriter f ∈ writer → ".results".toList <:+ f) ∧
      (∀ g, Writer.DatabaseWriter g ∈ writer → ".BinDiff".toList <:+ g) ∧
      (flags.FLAGS_log_format = false → flags.FLAGS_bin_format = false →
        ∃ g, writer = [Writer.DatabaseWriter g]) ∧
      (flags.FLAGS_log_format = true → flags.FLAGS_bin_format = true →
        ∃ f g, writer = [Writer.ResultsLogWriter f, Writer.DatabaseWriter g]) ∧
      (∀ (w : World) (t : DifferThread), t.out_path_ = out_dir →
        t.call_graph1.filename = filename1 → t.call_graph2.filename = filename2 →
        w.Diff t.call_graph1 t.call_graph2 = none →
        (diffAndWrite w flags t).2.events =
          t.events ++ [.diff t.call_graph1 t.call_graph2, .write writer]) ∧
      (∀ (env : MainEnv) (s : MainState) (call_graph1 call_graph2 : CallGraph),
        s.call_graph1 = some call_graph1 → s.call_graph2 = some call_graph2 →
        call_graph1.filename = filename1 → call_graph2.filename = filename2 →
        env.world.Diff call_graph1 call_graph2 = none →
        (mainSingleDiff flags env out_dir s).2.events =
          s.events ++ [.diff call_graph1 call_graph2, .write writer]) := by
  have hres := chain_name_ok_iff out_dir filename1 filename2 ".results".toList rfl
  have hbin := chain_name_ok_iff out_dir filename1 filename2 ".BinDiff".toList rfl
  by_cases hcond : out_dir.length + 13 < 250 ∨
      (out_dir.length + 13 = 250 ∧ (filename1 = [] ∨ filename2 = []))
  · obtain ⟨f, hf⟩ := hres.2 hcond
    obtain ⟨g, hg⟩ := hbin.2 hcond
    have hchain := makeChainWriter_ok flags out_dir filename1 filename2 f g hf hg
    have hsf := GetTruncatedFilename_suffix _ _ _ _ _ _ hf
    have hsg := GetTruncatedFilename_suffix _ _ _ _ _ _ hg
    clear hf hg hres hbin
    generalize ".results".toList = results at hsf ⊢
    generalize ".BinDiff".toList = bindiff at hsg ⊢
    refine ⟨⟨fun _ => hcond, fun _ => ⟨_, hchain⟩⟩, ?_⟩
    intro writer hw
    have hne : writer ≠ [] := by
      rw [hchain] at hw
      rw [← Except.ok.inj hw]
      cases flags.FLAGS_log_format <;> cases flags.FLAGS_bin_format <;> simp
    have hworker : ∀ (w : World) (t : DifferThread), t.out_path_ = out_dir →
        t.call_graph1.filename = filename1 → t.call_graph2.filename = filename2 →
        w.Diff t.call_graph1 t.call_graph2 = none →
        (diffAndWrite w flags t).2.events =
          t.events ++ [.diff t.call_graph1 t.call_graph2, .write writer] := by
      intro w t h1 h2 h3 h4
      exact diffAndWrite_writes w flags t writer h4 (by rw [h1, h2, h3]; exact hw)
    have hmain : ∀ (env : MainEnv) (s : MainState) (call_graph1 call_graph2 : CallGraph),
        s.call_graph1 = some call_graph1 → s.call_graph2 = some call_graph2 →
        call_graph1.filename = filename1 → call_graph2.filename = filename2 →
        env.world.Diff call_graph1 call_graph2 = none →
        (mainSingleDiff flags env out_dir s).2.events =
          s.events ++ [.diff call_graph1 call_graph2, .write writer] := by
      intro env s c1 c2 h1 h2 h3 h4 h5
      exact mainSingleDiff_writes flags env out_dir s c1 c2 writer h1 h2 h5
        (by rw [h3, h4]; exact hw) hne
    refine ⟨hne, ?_, ?_, ?_, ?_, ?_, ?_, hworker, hmain⟩ <;>
      · rw [hchain] at hw
        rw [← Except.ok.inj hw]
        cases flags.FLAGS_log_format <;> cases flags.FLAGS_bin_format <;>
          simp [hsf, hsg]
  · have hnof : ¬ ∃ r, GetTruncatedFilename (out_dir ++ "/".toList) filename1 "_vs_".toList
        filename2 ".results".toList = .ok r := fun h => hcond (hres.1 h)
    have hnog : ¬ ∃ r, GetTruncatedFilename (out_dir ++ "/".toList) filename1 "_vs_".toList
        filename2 ".BinDiff".toList = .ok r := fun h => hcond (hbin.1 h)
    have hef := (GetTruncatedFilename_total (out_dir ++ "/".toList) filename1 "_vs_".toList
      filename2 ".results".toList).resolve_left hnof
    have heg := (GetTruncatedFilename_total (out_dir ++ "/".toList) filename1 "_vs_".toList
      filename2 ".BinDiff".toList).resolve_left hnog
    obtain ⟨e, he⟩ := makeChainWriter_error flags out_dir filename1 filename2 _ _ hef heg
    refine ⟨⟨?_, fun h => absurd h hcond⟩, ?_⟩
    · rintro ⟨writer, hw⟩
      rw [he] at hw
      cases hw
    · intro writer hw
      rw [he] at hw
      cases hw

theorem C11_writer_chain_witness :
    ([Writer.ResultsLogWriter "d/p_vs_s.results".toList,
        Writer.DatabaseWriter "d/p_vs_s.BinDiff".toList] : ChainWriter) ≠ [] ∧
    ((∃ f, Writer.ResultsLogWriter f ∈
        ([Writer.ResultsLogWriter "d/p_vs_s.results".toList,
          Writer.DatabaseWriter "d/p_vs_s.BinDiff".toList] : ChainWriter)) ↔
      bothFormatsFlags.FLAGS_log_format = true) ∧
    ((∃ g, Writer.DatabaseWriter g ∈
        ([Writer.ResultsLogWriter "d/p_vs_s.results".toList,
          Writer.DatabaseWriter "d/p_vs_s.BinDiff".toList] : ChainWriter)) ↔
      (bothFormatsFlags.FLAGS_bin_format = true ∨ bothFormatsFlags.FLAGS_log_format = false)) :=
  have h := (C11_writer_chain bothFormatsFlags "d".toList "p".toList "s".toList).2
    [Writer.ResultsLogWriter "d/p_vs_s.results".toList,
      Writer.DatabaseWriter "d/p_vs_s.BinDiff".toList] rfl
  ⟨h.1, h.2.1, h.2.2.1⟩

end BinDiff
